import Mathlib

/-!
# Rspamd web interface (`interface/js/app/rspamd.js`)

A shallow embedding of the controller module of the Rspamd web interface:
the scatter-gather query engine (`ui.query`, `queryServer`), the password
check of the connect form, and the navigation state machine (`tabClick`,
`stopTimers`, `disconnect`, `ui.connect`), together with the properties
proved about them.

Conventions of the embedding.

* JavaScript callbacks that the module installs on a request (`success`,
  `error`, `complete`) become functions from the state before the callback to
  the state after it; the order in which requests settle is an explicit list
  of events.
* Calls into collaborators (the alert area, caller continuations, the
  `Visibility` scheduler, widgets owned by other modules) are recorded, in
  order, in a list of effects.
* An object used as a string-keyed map is an association list in insertion
  order, the order `for ... in` and `$.each` enumerate it in.
-/

namespace Rspamd

/-! ## Scatter-gather query engine -/

/-- An opaque JSON payload, seen through its enumerable properties
(property name, rendered value): all `jQuery.isEmptyObject` looks at. -/
abbrev Json := List (String × String)

/-- The function `jQuery.isEmptyObject`: no enumerable property. -/
def isEmptyObject {α : Type} (obj : List (String × α)) : Bool :=
  obj.isEmpty

/-- One element of `neighbours_status`, with the fields the object literal
in `ui.query` gives it. -/
structure Node where
  name : String
  url : String
  host : String
  checked : Bool
  data : Json
  status : Bool
  deriving DecidableEq, Repr

/-- How one request settles: jQuery runs either `success(json)` or
`error(jqXHR, textStatus, errorThrown)`, and then `complete`. -/
inductive Outcome where
  | success (json : Json)
  | error (textStatus : String) (errorThrown : String)
  deriving DecidableEq, Repr

/-- What `queryServer` does to its collaborators. -/
inductive Effect where
  /-- The call `on_success(neighbours_status)`. -/
  | onSuccess (nodes : List Node)
  /-- The call `on_error(neighbours_status[ind], jqXHR, textStatus, errorThrown)`. -/
  | onError (node : Node) (textStatus : String) (errorThrown : String)
  /-- The call `alertMessage(alertClass, alertText)`. -/
  | alert (alertClass : String) (alertText : String)
  deriving DecidableEq, Repr

/-- The optional continuations of a call of `ui.query`: `true` when the
argument was supplied (is truthy). The `params` argument is taken to carry
transport options only, not replacements for the three callbacks. -/
structure Callbacks where
  on_success : Bool
  on_error : Bool
  deriving DecidableEq, Repr

/-- Assignment `neighbours_status[ind].f = v`, as an update of the node at
`ind`. -/
def updateNode (neighbours_status : List Node) (ind : Nat) (f : Node → Node) : List Node :=
  neighbours_status.modify f ind

/-- The `success` callback of `queryServer` for the request of node `ind`. -/
def onSuccessHandler (neighbours_status : List Node) (ind : Nat) (json : Json) : List Node :=
  let ns := updateNode neighbours_status ind (fun n => { n with checked := true })
  if isEmptyObject json then
    updateNode ns ind (fun n => { n with status := false })
  else
    updateNode (updateNode ns ind (fun n => { n with status := true })) ind
      (fun n => { n with data := json })

/-- The `error` callback of `queryServer` for the request of node `ind`.
The index is one of the node array (`ui.query` passes no other); for any
other the callback is given no effect. -/
def onErrorHandler (cb : Callbacks) (neighbours_status : List Node) (ind : Nat)
    (textStatus errorThrown : String) : List Node × List Effect :=
  let ns := updateNode neighbours_status ind (fun n => { n with status := false })
  let ns := updateNode ns ind (fun n => { n with checked := true })
  match ns.get? ind with
  | none => (ns, [])
  | some node =>
    if cb.on_error then
      (ns, [Effect.onError node textStatus errorThrown])
    else
      (ns, [Effect.alert "alert-error"
        ("Cannot receive data from " ++ node.host ++ ": " ++ errorThrown)])

/-- The `complete` callback of `queryServer`. -/
def onComplete (cb : Callbacks) (neighbours_status : List Node) : List Effect :=
  if neighbours_status.all (fun elt => elt.checked) then
    if neighbours_status.any (fun elt => elt.status) then
      if cb.on_success then
        [Effect.onSuccess neighbours_status]
      else
        [Effect.alert "alert-success" "Request completed"]
    else
      [Effect.alert "alert-error" "Request failed"]
  else
    []

/-- One settle event of the request that `queryServer` issued for node
`ind`: the `success` or `error` callback followed by `complete`. -/
def settle (cb : Callbacks) (neighbours_status : List Node) (ind : Nat) (o : Outcome) :
    List Node × List Effect :=
  match o with
  | Outcome.success json =>
    let ns := onSuccessHandler neighbours_status ind json
    (ns, onComplete cb ns)
  | Outcome.error textStatus errorThrown =>
    let r := onErrorHandler cb neighbours_status ind textStatus errorThrown
    (r.1, r.2 ++ onComplete cb r.1)

/-- The fan-out seen from outside: the settle events are processed in their
order of arrival, each on the node array the earlier ones left, and the
effects accumulate. -/
def run (cb : Callbacks) (neighbours_status : List Node) (events : List (Nat × Outcome)) :
    List Node × List Effect :=
  events.foldl
    (fun acc ev =>
      let r := settle cb acc.1 ev.1 ev.2
      (r.1, acc.2 ++ r.2))
    (neighbours_status, [])

/-- The page's `window.location`, as far as `ui.query` reads it. -/
structure Location where
  host : String
  href : String
  deriving DecidableEq, Repr

/-- One value of the `neighbours` map. -/
structure Endpoint where
  host : String
  url : String
  deriving DecidableEq, Repr

/-- The `neighbours` map, from node name to endpoint. -/
abbrev Directory := List (String × Endpoint)

/-- The assignment to `neighbours` in the `success` callback of the
discovery request. -/
def resolveNeighbours (location : Location) (data : Directory) : Directory :=
  if isEmptyObject data then
    [("local", { host := location.host, url := location.href })]
  else
    data

/-- The first `$.each` of the discovery `success` callback: one fresh node
per entry of `neighbours`. -/
def buildStatus (neighbours : Directory) : List Node :=
  neighbours.map (fun e =>
    { name := e.1, url := e.2.url, host := e.2.host, checked := false, data := [],
      status := false })

/-- The second `$.each`: the request `queryServer` issues for each index,
as (index, url). -/
def fanOut (neighbours_status : List Node) (req_url : String) : List (Nat × String) :=
  neighbours_status.enum.map (fun p => (p.1, p.2.url ++ req_url))

/-- What a call of `ui.query` starts. -/
inductive QueryStart where
  /-- The discovery request to `neighbours` was sent. -/
  | discovery
  /-- The single selected node is queried: its node array and request. -/
  | single (neighbours_status : List Node) (requests : List (Nat × String))
  /-- Reading `neighbours[checked_server].url` threw a `TypeError`. -/
  | typeError
  deriving DecidableEq, Repr

/-- The body of `ui.query` up to the first request it sends. -/
def query (neighbours : Directory) (checked_server : String) (req_url : String)
    (is_cluster : Bool) : QueryStart :=
  if checked_server = "All SERVERS" || is_cluster then
    QueryStart.discovery
  else
    match neighbours.lookup checked_server with
    | none => QueryStart.typeError
    | some e =>
      let neighbours_status : List Node :=
        [{ name := checked_server, url := e.url, host := e.host, checked := false,
           data := [], status := false }]
      QueryStart.single neighbours_status (fanOut neighbours_status req_url)

/-- The `success` callback of the discovery request: the new value of
`neighbours`, the node array and the requests issued. -/
def discoverySuccess (location : Location) (data : Directory) (req_url : String) :
    Directory × List Node × List (Nat × String) :=
  let neighbours := resolveNeighbours location data
  let neighbours_status := buildStatus neighbours
  (neighbours, neighbours_status, fanOut neighbours_status req_url)

/-! ## The password check of the connect form -/

/-- The UTF-16 code units of one character: the units a JavaScript string
holds for it, and a regular expression without the `u` flag matches on
(a character beyond U+FFFF is a pair of surrogates). -/
def utf16 (c : Char) : List Nat :=
  if c.toNat < 0x10000 then
    [c.toNat]
  else
    [0xD800 + (c.toNat - 0x10000) / 0x400, 0xDC00 + (c.toNat - 0x10000) % 0x400]

/-- The code units of a string. -/
def codeUnits : List Char → List Nat
  | [] => []
  | c :: cs => utf16 c ++ codeUnits cs

/-- The terms the pattern of the connect form is made of. -/
inductive Term where
  /-- The assertion `^` (no `m` flag: start of input). -/
  | bol
  /-- The assertion `$` (no `m` flag: end of input). -/
  | eol
  /-- A greedy `[lo-hi]*`. -/
  | classStar (lo hi : Nat)
  deriving DecidableEq, Repr

/-- Backtracking match of `[lo-hi]*` followed by the continuation `k`:
take one more unit of the class when there is one and the rest matches,
otherwise leave the class here. The flag tells whether the position is the
start of the input. -/
def matchStar (lo hi : Nat) (k : Bool → List Nat → Bool) : Bool → List Nat → Bool
  | atStart, [] => k atStart []
  | atStart, c :: cs =>
    (decide (lo ≤ c) && decide (c ≤ hi) && matchStar lo hi k false cs) || k atStart (c :: cs)

/-- Match of a sequence of terms at the current position. -/
def matchTerms : List Term → Bool → List Nat → Bool
  | [] => fun _ _ => true
  | Term.bol :: p => fun atStart s => atStart && matchTerms p atStart s
  | Term.eol :: p => fun atStart s => s.isEmpty && matchTerms p atStart s
  | Term.classStar lo hi :: p => matchStar lo hi (matchTerms p)

/-- The search `RegExp.prototype.test` makes: a match at the current
position or at a later one. -/
def searchFrom (p : List Term) : Bool → List Nat → Bool
  | atStart, [] => matchTerms p atStart []
  | atStart, c :: cs => matchTerms p atStart (c :: cs) || searchFrom p false cs

/-- The method `test` of a pattern without flags, on a string. -/
def test (p : List Term) (s : String) : Bool :=
  searchFrom p true (codeUnits s.data)

/-- The pattern `/^[ -~]*$/` of the submit handler. -/
def passwordPattern : List Term :=
  [Term.bol, Term.classStar 0x20 0x7e, Term.eol]

/-! ## Navigation and session state -/

/-- A call into a collaborator, as the controller makes it. -/
inductive Call where
  /-- The call `alertMessage(alertClass, alertText)`. -/
  | alertMessage (alertClass : String) (alertText : String)
  /-- A request `$.ajax` with its method, url and request headers. -/
  | ajax (type : String) (url : String) (headers : List (String × String))
  /-- A jQuery call `$(selector).op(...)` that changes presentation only
  (`show`, `hide`, `empty`, `remove`, `focus`, `val`, `off`, `on`). -/
  | dom (op : String) (selector : String)
  /-- The call `destroy()` on a widget held in `graphs` or `tables`. -/
  | destroy (widget : String)
  /-- A fetch action of a tab module, such as `tab_stat.statWidgets`. -/
  | fetch (action : String)
  /-- The call `Visibility.stop(id)`. -/
  | visibilityStop (id : Nat)
  /-- The call `Visibility.every(interval, callback)` and the handle it
  returned. -/
  | visibilityEvery (interval : Nat) (id : Nat)
  deriving DecidableEq, Repr

/-- The variables of the module closure, the session storage, the part of
the page `tabClick` reads, the timers of the `Visibility` scheduler and the
pending `setTimeout` callbacks of `tabClick`. -/
@[ext]
structure State where
  /-- The keys present in `graphs`. -/
  graphs : List String
  /-- The keys present in `tables`. -/
  tables : List String
  checked_server : String
  /-- The field `ui.read_only`. -/
  read_only : Bool
  /-- The properties of `timer_id`, in insertion order. -/
  timer_id : List (String × Nat)
  selData : String
  /-- The items of `sessionStorage`. -/
  sessionStorage : List (String × String)
  /-- The selectors that match an element of the page. -/
  elements : List String
  /-- The selectors whose element carries the attribute `disabled`. -/
  disabled : List String
  /-- The handles of the timers the scheduler is running. -/
  timers : List Nat
  /-- The handle the scheduler gives out next. -/
  nextTimer : Nat
  /-- The pending 1000 ms callbacks of `tabClick`, oldest first, each with
  the `tab_id` it captured. -/
  timeouts : List String
  /-- The calls made so far. -/
  calls : List Call
  deriving DecidableEq, Repr

/-- An exception, or the end of the call depth the embedding follows. -/
inductive Fault where
  | exception
  | outOfFuel
  deriving DecidableEq, Repr

/-- Assignment `obj[key] = value` on a string-keyed object. -/
def assign {α : Type} (obj : List (String × α)) (key : String) (value : α) :
    List (String × α) :=
  if obj.any (fun e => e.1 == key) then
    obj.map (fun e => if e.1 = key then (key, value) else e)
  else
    obj ++ [(key, value)]

/-- Record calls. -/
def State.log (s : State) (cs : List Call) : State :=
  { s with calls := s.calls ++ cs }

/-- The test `$(selector).attr("disabled")`. -/
def State.isDisabled (s : State) (selector : String) : Bool :=
  decide (selector ∈ s.elements) && decide (selector ∈ s.disabled)

/-- The call `$(selector).attr("disabled", true)`: nothing when the
selector matches no element. -/
def State.disable (s : State) (selector : String) : State :=
  if selector ∈ s.elements ∧ selector ∉ s.disabled then
    { s with disabled := s.disabled ++ [selector] }
  else
    s

/-- The call `$(selector).removeAttr("disabled")`. -/
def State.enable (s : State) (selector : String) : State :=
  { s with disabled := s.disabled.filter (fun x => x ≠ selector) }

/-- The function `getPassword`. -/
def getPassword (s : State) : Option String :=
  s.sessionStorage.lookup "Password"

/-- The function `saveCredentials`. -/
def saveCredentials (password : String) (s : State) : State :=
  { s with sessionStorage := assign s.sessionStorage "Password" password }

/-- The function `isLogged`. -/
def isLogged (s : State) : Bool :=
  if s.sessionStorage.lookup "Credentials" ≠ none then
    true
  else
    false

/-- The function `cleanCredentials`. -/
def cleanCredentials (s : State) : State :=
  { s with sessionStorage := [] }.log
    [Call.dom "empty" "#statWidgets", Call.dom "empty" "#listMaps",
     Call.dom "empty" "#modalBody", Call.dom "remove" "#historyLog tbody",
     Call.dom "remove" "#errorsLog tbody", Call.dom "remove" "#symbolsTable tbody"]

/-- Modelled from the spec: the external scheduler `Visibility`, whose code
is not part of this module. `Visibility.stop(id)` cancels the timer with
that handle and does nothing for a handle that runs no timer. -/
def Visibility.stop (id : Nat) (s : State) : State :=
  { s with timers := s.timers.filter (fun t => t ≠ id) }.log [Call.visibilityStop id]

/-- Modelled from the spec: the external scheduler `Visibility`.
`Visibility.every(interval, callback)` starts a recurring timer and
returns its handle, one no earlier timer had. -/
def Visibility.every (interval : Nat) (s : State) : State × Nat :=
  ({ s with timers := s.timers ++ [s.nextTimer], nextTimer := s.nextTimer + 1 }.log
      [Call.visibilityEvery interval s.nextTimer],
    s.nextTimer)

/-- The function `stopTimers`. -/
def stopTimers (s : State) : State :=
  s.timer_id.foldl (fun acc kv => Visibility.stop kv.2 acc) s

/-- The statement `if (graphs.k) { graphs.k.destroy(); delete graphs.k; }`. -/
def destroyGraph (k : String) (s : State) : State :=
  if k ∈ s.graphs then
    { s with graphs := s.graphs.filter (fun x => x ≠ k) }.log [Call.destroy ("graphs." ++ k)]
  else
    s

/-- The statement `if (tables.k) { tables.k.destroy(); delete tables.k; }`. -/
def destroyTable (k : String) (s : State) : State :=
  if k ∈ s.tables then
    { s with tables := s.tables.filter (fun x => x ≠ k) }.log [Call.destroy ("tables." ++ k)]
  else
    s

/-- The function `ui.connect`, with `displayUI` as a parameter. The
argument `readOnly text server` is the value of
`data && data[server].read_only` for `data = JSON.parse(text)`, `none`
when that throws. -/
def connectWith (displayUI : State → Except Fault State)
    (readOnly : String → String → Option Bool) (s : State) : Except Fault State :=
  if isLogged s then
    let flag : Option Bool :=
      match s.sessionStorage.lookup "Credentials" with
      | none => some false
      | some text => readOnly text s.checked_server
    match flag with
    | none => Except.error Fault.exception
    | some true =>
      displayUI
        ((({ s with read_only := true }.log [Call.dom "hide" "#learning_nav"]).disable
          "#resetHistory").log [Call.dom "hide" "#errors-history"])
    | some false =>
      displayUI
        (({ s with read_only := false }.log [Call.dom "show" "#learning_nav"]).enable
          "#resetHistory")
  else
    Except.ok (s.log
      [Call.dom "hide" "#mainUI", Call.dom "show" "#connectDialog", Call.dom "show" "#backDrop",
       Call.dom "focus" "#connectPassword", Call.dom "off" "#connectForm",
       Call.dom "on" "#connectForm"])

/-- The function `disconnect`, with `displayUI` as a parameter. -/
def disconnectWith (displayUI : State → Except Fault State)
    (readOnly : String → String → Option Bool) (s : State) : Except Fault State :=
  let s := destroyGraph "chart" s
  let s := destroyGraph "rrd_pie" s
  let s := destroyGraph "graph" s
  let s := destroyTable "history" s
  let s := destroyTable "errors" s
  let s := destroyTable "symbols" s
  let s := stopTimers s
  let s := cleanCredentials s
  connectWith displayUI readOnly s

/-- The function `displayUI`, with `tabClick("#refresh")` as a parameter. -/
def displayUIWith (tabClickRefresh : State → Except Fault State) (s : State) :
    Except Fault State :=
  let s := s.log
    [Call.dom "show" "#mainUI", Call.dom "show" "#progress",
     Call.dom "show" "#navBar .pull-right"]
  match tabClickRefresh s with
  | Except.error e => Except.error e
  | Except.ok s => Except.ok (s.log [Call.dom "hide" "#progress"])

/-- The interval `autoRefresh[selData] || 3600000` of the throughput tab. -/
def autoRefresh (selData : String) : Nat :=
  if selData = "hourly" then 60000
  else if selData = "daily" then 300000
  else 3600000

/-- The `switch` statement of `tabClick`, with `disconnect` as a
parameter. -/
def tabSwitch (disconnect : State → Except Fault State) (tab_id : String) (s : State) :
    Except Fault State :=
  if tab_id = "#status_nav" then
    let s := s.log [Call.fetch "tab_stat.statWidgets"]
    let r := Visibility.every 10000 s
    Except.ok { r.1 with timer_id := assign r.1.timer_id "status" r.2 }
  else if tab_id = "#throughput_nav" then
    let s := s.log [Call.fetch "tab_graph.draw"]
    let r := Visibility.every (autoRefresh s.selData) s
    Except.ok { r.1 with timer_id := assign r.1.timer_id "throughput" r.2 }
  else if tab_id = "#configuration_nav" then
    Except.ok (s.log [Call.fetch "tab_config.getActions", Call.fetch "tab_config.getMaps"])
  else if tab_id = "#symbols_nav" then
    Except.ok (s.log [Call.fetch "tab_symbols.getSymbols"])
  else if tab_id = "#history_nav" then
    Except.ok (s.log [Call.fetch "tab_history.getHistory", Call.fetch "tab_history.getErrors"])
  else if tab_id = "#disconnect" then
    disconnect s
  else
    Except.ok s

/-- The function `tabClick`. The argument `active` is the `id` of the
active navigation link, `$(".navbar-nav .active > a").attr("id")`, absent
when no link is active. The first argument bounds the depth of the calls
`tabClick` → `disconnect` → `ui.connect` → `displayUI` → `tabClick`. -/
def tabClick : Nat → (String → String → Option Bool) → Option String → String → State →
    Except Fault State
  | 0, _, _, _, _ => Except.error Fault.outOfFuel
  | fuel + 1, readOnly, active, id, s =>
    let tab_id := id
    if s.isDisabled tab_id then
      Except.ok s
    else
      let s := s.disable tab_id
      let s := stopTimers s
      let tab_id := if tab_id = "#refresh" then "#" ++ active.getD "undefined" else tab_id
      match tabSwitch
          (disconnectWith (displayUIWith (tabClick fuel readOnly active "#refresh")) readOnly)
          tab_id s with
      | Except.error e => Except.error e
      | Except.ok s => Except.ok { s with timeouts := s.timeouts ++ [tab_id] }

/-- The function `displayUI`. -/
def displayUI (fuel : Nat) (readOnly : String → String → Option Bool) (active : Option String)
    (s : State) : Except Fault State :=
  displayUIWith (tabClick fuel readOnly active "#refresh") s

/-- The function `ui.connect`. -/
def connect (fuel : Nat) (readOnly : String → String → Option Bool) (active : Option String)
    (s : State) : Except Fault State :=
  connectWith (displayUI fuel readOnly active) readOnly s

/-- The function `disconnect`. -/
def disconnect (fuel : Nat) (readOnly : String → String → Option Bool) (active : Option String)
    (s : State) : Except Fault State :=
  disconnectWith (displayUI fuel readOnly active) readOnly s

/-- The callback `tabClick` hands to `setTimeout`, for the oldest pending
one: `$(tab_id).removeAttr("disabled")` and the same for `#refresh`. -/
def fireTimeout (s : State) : State :=
  match s.timeouts with
  | [] => s
  | tab_id :: rest => (({ s with timeouts := rest }.enable tab_id).enable "#refresh")

/-- The `submit` handler `ui.connect` binds to the connect form, on the
value `password` of the password field. -/
def submit (password : String) (s : State) : State :=
  if !(test passwordPattern password) then
    s.log
      [Call.alertMessage "alert-modal alert-error" "Invalid characters in the password",
       Call.dom "focus" "#connectPassword"]
  else
    s.log [Call.ajax "GET" "auth" [("Password", password)]]

/-- The response of `auth`, as far as the `success` callback reads it:
the value of `json.auth` when it is a string, and the truth value of
`json.read_only`. -/
structure AuthJson where
  auth : Option String
  read_only : Bool
  deriving DecidableEq, Repr

/-- The `success` callback of the `auth` request sent for `password`, with
`displayUI` as a parameter. -/
def authSuccessWith (displayUI : State → Except Fault State) (password : String)
    (json : AuthJson) (s : State) : Except Fault State :=
  let s := s.log [Call.dom "val" "#connectPassword"]
  if json.auth = some "failed" then
    Except.ok s
  else
    let s :=
      if json.read_only then
        (({ s with read_only := true }.log [Call.dom "hide" "#learning_nav"]).disable
          "#resetHistory").log [Call.dom "hide" "#errors-history"]
      else
        ({ s with read_only := false }.log [Call.dom "show" "#learning_nav"]).enable
          "#resetHistory"
    let s := saveCredentials password s
    let s := s.log [Call.dom "hide" "#connectDialog", Call.dom "hide" "#backDrop"]
    displayUI s

/-- The `success` callback of the `auth` request sent for `password`. -/
def authSuccess (fuel : Nat) (readOnly : String → String → Option Bool)
    (active : Option String) (password : String) (json : AuthJson) (s : State) :
    Except Fault State :=
  authSuccessWith (displayUI fuel readOnly active) password json s

/-- The `error` callback of the `auth` request. -/
def authError (statusText : String) (s : State) : State :=
  s.log
    [Call.alertMessage "alert-modal alert-error" statusText,
     Call.dom "val" "#connectPassword", Call.dom "focus" "#connectPassword"]

/-- The events that reach `tabClick`, and the expiry of its delay. -/
inductive Event where
  /-- A click on the navigation link or button `id`, or any other call
  `tabClick(id)`; `active` is the active link then. -/
  | click (id : String) (active : Option String)
  /-- The `change` handler of `#selData`. -/
  | selData (value : String) (active : Option String)
  /-- The `change` handler of `#selSrv`; `navActive` is the `id` of
  `$("#navBar ul li.active > a")`. -/
  | selSrv (value : String) (navActive : Option String) (active : Option String)
  /-- The `click` handler of an enabled radio button `clusterName`. -/
  | radio (value : String) (active : Option String)
  /-- The oldest pending 1000 ms callback of `tabClick` runs. -/
  | timeout
  deriving DecidableEq, Repr

/-- The handler of one event. -/
def step (fuel : Nat) (readOnly : String → String → Option Bool) (s : State) :
    Event → Except Fault State
  | Event.click id active => tabClick fuel readOnly active id s
  | Event.selData value active =>
    tabClick fuel readOnly active "#throughput_nav" { s with selData := value }
  | Event.selSrv value navActive active =>
    tabClick fuel readOnly active ("#" ++ navActive.getD "undefined")
      { s with checked_server := value }
  | Event.radio value active =>
    tabClick fuel readOnly active "#status_nav" { s with checked_server := value }
  | Event.timeout => Except.ok (fireTimeout s)

/-- The handlers of a sequence of events, one after the other. -/
def runEvents (fuel : Nat) (readOnly : String → String → Option Bool) :
    State → List Event → Except Fault State
  | s, [] => Except.ok s
  | s, e :: es =>
    match step fuel readOnly s e with
    | Except.error f => Except.error f
    | Except.ok s' => runEvents fuel readOnly s' es

/-- The state when the module has been loaded: no graph, no table, no
timer, no pending callback; the page, its disabled controls, the session
storage left by an earlier load and the throughput selector are as given. -/
def pageLoad (elements disabled : List String) (sessionStorage : List (String × String))
    (selData : String) : State :=
  { graphs := [], tables := [], checked_server := "All SERVERS", read_only := false,
    timer_id := [], selData := selData, sessionStorage := sessionStorage,
    elements := elements, disabled := disabled, timers := [], nextTimer := 0,
    timeouts := [], calls := [] }

/-- The controls of the navigation bar. -/
def navControls : List String :=
  ["#status_nav", "#throughput_nav", "#configuration_nav", "#symbols_nav", "#history_nav",
   "#disconnect", "#refresh"]

/-- A decoder of stored credentials that finds no read-only flag. -/
def noReadOnly : String → String → Option Bool :=
  fun _ _ => some false

/-- The state `disconnect` leaves before it calls `ui.connect`. -/
def teardown (s : State) : State :=
  cleanCredentials (stopTimers (destroyTable "symbols" (destroyTable "errors"
    (destroyTable "history" (destroyGraph "graph" (destroyGraph "rrd_pie"
      (destroyGraph "chart" s)))))))

/-- The calls of `ui.connect` when no session is stored. -/
def connectDialogCalls : List Call :=
  [Call.dom "hide" "#mainUI", Call.dom "show" "#connectDialog", Call.dom "show" "#backDrop",
   Call.dom "focus" "#connectPassword", Call.dom "off" "#connectForm",
   Call.dom "on" "#connectForm"]

/-- The key lists `timer_id` can have. -/
def timerKeys : List (List String) :=
  [[], ["status"], ["throughput"], ["status", "throughput"], ["throughput", "status"]]

/-- The timer invariant of the navigation state machine: the scheduler
runs at most one timer, every timer it runs has its handle in `timer_id`,
and `timer_id` has no other keys than `status` and `throughput`. -/
def TimersOk (s : State) : Prop :=
  s.timers.length ≤ 1 ∧ (∀ t ∈ s.timers, t ∈ s.timer_id.map Prod.snd) ∧
  s.timer_id.map Prod.fst ∈ timerKeys

/-- The number of recurring timers the `switch` statement of `tabClick`
registers for a tab. -/
def timersOf (tab_id : String) : Nat :=
  if tab_id = "#status_nav" ∨ tab_id = "#throughput_nav" then 1 else 0

/-- The state without its record of calls. -/
def State.forget (s : State) : State :=
  { s with calls := [] }

/-! ## Observations on an effect trace -/

/-- A request outcome that makes its node usable: a transport success with
a non-empty payload. -/
def Outcome.usable : Outcome → Bool
  | Outcome.success json => !isEmptyObject json
  | Outcome.error _ _ => false

/-- The effect is a call of the caller's `on_success` continuation. -/
def Effect.isOnSuccess : Effect → Bool
  | Effect.onSuccess _ => true
  | _ => false

/-- The effect is a call of the caller's per-node `on_error` hook. -/
def Effect.isOnError : Effect → Bool
  | Effect.onError _ _ _ => true
  | _ => false

/-- The aggregate decision an effect makes visible, if it is one: `true`
for the success branch of `complete` (the `on_success` call or the
"Request completed" alert), `false` for the "Request failed" alert. -/
def Effect.decision : Effect → Option Bool
  | Effect.onSuccess _ => some true
  | Effect.alert c t =>
    if c = "alert-success" ∧ t = "Request completed" then some true
    else if c = "alert-error" ∧ t = "Request failed" then some false
    else none
  | Effect.onError _ _ _ => none

/-- The aggregate decisions of a trace, in order. -/
def decisions (effects : List Effect) : List Bool :=
  effects.filterMap Effect.decision

/-- The node `n` after its own request settled with outcome `o`: what the
`success` or `error` callback leaves in its fields. -/
def Node.settled (n : Node) (o : Outcome) : Node :=
  match o with
  | Outcome.success json =>
    if isEmptyObject json then { n with checked := true, status := false }
    else { n with checked := true, status := true, data := json }
  | Outcome.error _ _ => { n with status := false, checked := true }

/-- The number of nodes whose request has not settled yet. -/
def pending (neighbours_status : List Node) : Nat :=
  neighbours_status.countP (fun elt => !elt.checked)

/-- The three-node directory of the specification's scenario. -/
def dirABC : Directory :=
  [("A", { host := "a.example", url := "http://a.example/" }),
   ("B", { host := "b.example", url := "http://b.example/" }),
   ("C", { host := "c.example", url := "http://c.example/" })]

/-- The settle order of the specification's scenario: B with a payload,
then A with a transport error, then C with an empty payload. -/
def eventsBAC : List (Nat × Outcome) :=
  [(1, Outcome.success [("version", "1.7")]), (0, Outcome.error "timeout" "timeout"),
   (2, Outcome.success [])]

/-- A two-node directory. -/
def dirAB : Directory :=
  [("A", { host := "a.example", url := "http://a.example/" }),
   ("B", { host := "b.example", url := "http://b.example/" })]

/-- Both nodes of `dirAB` time out, B first. -/
def eventsTimeout : List (Nat × Outcome) :=
  [(1, Outcome.error "timeout" "timeout"), (0, Outcome.error "timeout" "timeout")]

/-- Node B of `dirAB` answers with a payload, then node A with an empty
one. -/
def eventsEmpty : List (Nat × Outcome) :=
  [(1, Outcome.success [("version", "1.7")]), (0, Outcome.success [])]

/-- The aggregate failure alert of `complete`. -/
def requestFailed : Effect :=
  Effect.alert "alert-error" "Request failed"

end Rspamd

/-! ## Properties of the query engine -/

namespace Rspamd

theorem run_nil (cb : Callbacks) (ns : List Node) : run cb ns [] = (ns, []) := rfl

theorem run_foldl_shift (cb : Callbacks) (es : List (Nat × Outcome)) :
    ∀ (ns : List Node) (pre : List Effect),
      es.foldl (fun acc ev => ((settle cb acc.1 ev.1 ev.2).1, acc.2 ++ (settle cb acc.1 ev.1 ev.2).2))
        (ns, pre)
      = ((run cb ns es).1, pre ++ (run cb ns es).2) := by
  induction es with
  | nil => intro ns pre; simp [run]
  | cons e es ih =>
    intro ns pre
    simp only [run, List.foldl_cons, List.nil_append]
    rw [ih, ih (settle cb ns e.1 e.2).1 (settle cb ns e.1 e.2).2]
    simp [List.append_assoc]

theorem run_cons (cb : Callbacks) (ns : List Node) (e : Nat × Outcome)
    (es : List (Nat × Outcome)) :
    run cb ns (e :: es)
      = ((run cb (settle cb ns e.1 e.2).1 es).1,
         (settle cb ns e.1 e.2).2 ++ (run cb (settle cb ns e.1 e.2).1 es).2) := by
  have h := run_foldl_shift cb es (settle cb ns e.1 e.2).1 (settle cb ns e.1 e.2).2
  simp only [run, List.foldl_cons, List.nil_append] at h ⊢
  exact h

theorem run_append (cb : Callbacks) (es₁ es₂ : List (Nat × Outcome)) :
    ∀ ns : List Node,
      run cb ns (es₁ ++ es₂)
        = ((run cb (run cb ns es₁).1 es₂).1,
           (run cb ns es₁).2 ++ (run cb (run cb ns es₁).1 es₂).2) := by
  induction es₁ with
  | nil => intro ns; simp [run_nil]
  | cons e es ih =>
    intro ns
    rw [List.cons_append, run_cons, ih, run_cons]
    simp [List.append_assoc]

theorem countP_modify_le {α : Type} (p : α → Bool) (f : α → α) :
    ∀ (l : List α) (i : Nat), l.countP p ≤ (l.modify f i).countP p + 1 := by
  intro l
  induction l with
  | nil => intro i; simp
  | cons a l ih =>
    intro i
    cases i with
    | zero =>
      simp only [List.modify_zero_cons, List.countP_cons]
      split <;> split <;> omega
    | succ i =>
      simp only [List.modify_succ_cons, List.countP_cons]
      have := ih i
      omega

theorem cannot_receive_ne (h e : String) :
    ("Cannot receive data from " ++ h ++ ": " ++ e) ≠ "Request failed" := by
  intro hc
  have := congrArg String.data hc
  simp [String.data_append] at this

theorem onErrorHandler_fst (cb : Callbacks) (ns : List Node) (i : Nat) (t x : String) :
    (onErrorHandler cb ns i t x).1
      = ns.modify (fun n => n.settled (Outcome.error t x)) i := by
  have h : ∀ r : List Node × List Effect,
      r = onErrorHandler cb ns i t x →
      r.1 = ns.modify (fun n => n.settled (Outcome.error t x)) i := by
    intro r hr
    simp only [onErrorHandler, updateNode, List.modify_modify_eq] at hr
    split at hr
    · rw [hr]; rfl
    · split at hr <;> (rw [hr]; rfl)
  exact h _ rfl

theorem settle_fst (cb : Callbacks) (ns : List Node) (i : Nat) (o : Outcome) :
    (settle cb ns i o).1 = ns.modify (fun n => n.settled o) i := by
  cases o with
  | success json =>
    simp only [settle, onSuccessHandler, updateNode, List.modify_modify_eq]
    by_cases hj : isEmptyObject json = true
    · simp only [hj, if_true]
      congr 1
      funext n
      simp [Node.settled, hj]
    · have hj' : isEmptyObject json = false := by simpa using hj
      simp only [hj', Bool.false_eq_true, if_false]
      congr 1
      funext n
      simp [Node.settled, hj']
  | error t x =>
    simp only [settle]
    exact onErrorHandler_fst cb ns i t x

theorem settle_length (cb : Callbacks) (ns : List Node) (i : Nat) (o : Outcome) :
    (settle cb ns i o).1.length = ns.length := by
  rw [settle_fst]; simp

theorem settled_checked (n : Node) (o : Outcome) : (n.settled o).checked = true := by
  cases o with
  | success json => simp only [Node.settled]; split <;> rfl
  | error t x => rfl

theorem settled_status (n : Node) (o : Outcome) : (n.settled o).status = o.usable := by
  cases o with
  | success json =>
    simp only [Node.settled, Outcome.usable]
    split <;> simp_all
  | error t x => rfl

theorem pending_settle (cb : Callbacks) (ns : List Node) (i : Nat) (o : Outcome) :
    pending ns ≤ pending (settle cb ns i o).1 + 1 := by
  rw [settle_fst]
  exact countP_modify_le _ _ ns i

theorem onComplete_pending (cb : Callbacks) (ns : List Node) (h : 0 < pending ns) :
    onComplete cb ns = [] := by
  have hall : ns.all (fun elt => elt.checked) = false := by
    rw [pending, List.countP_pos_iff] at h
    obtain ⟨n, hn, hc⟩ := h
    rw [List.all_eq_false]
    exact ⟨n, hn, by simpa using hc⟩
  simp [onComplete, hall]

theorem onErrorHandler_decisions (cb : Callbacks) (ns : List Node) (i : Nat) (t x : String) :
    decisions (onErrorHandler cb ns i t x).2 = [] := by
  have h : ∀ r : List Node × List Effect,
      r = onErrorHandler cb ns i t x → decisions r.2 = [] := by
    intro r hr
    simp only [onErrorHandler] at hr
    split at hr
    · rw [hr]; rfl
    · split at hr
      · rw [hr]; rfl
      · rw [hr]
        simp [decisions, Effect.decision, cannot_receive_ne]
  exact h _ rfl

theorem settle_snd (cb : Callbacks) (ns : List Node) (i : Nat) (o : Outcome) :
    ∃ pre : List Effect,
      (settle cb ns i o).2 = pre ++ onComplete cb (settle cb ns i o).1 ∧ decisions pre = [] := by
  cases o with
  | success json => exact ⟨[], rfl, rfl⟩
  | error t x => exact ⟨(onErrorHandler cb ns i t x).2, rfl, onErrorHandler_decisions cb ns i t x⟩

theorem decisions_append (a b : List Effect) :
    decisions (a ++ b) = decisions a ++ decisions b := by
  simp [decisions, List.filterMap_append]

theorem settle_decisions (cb : Callbacks) (ns : List Node) (i : Nat) (o : Outcome) :
    decisions (settle cb ns i o).2 = decisions (onComplete cb (settle cb ns i o).1) := by
  obtain ⟨pre, h1, h2⟩ := settle_snd cb ns i o
  rw [h1, decisions_append, h2, List.nil_append]

/-- While fewer events have been processed than nodes are pending, no
aggregate decision has been made. -/
theorem run_decisions_early (cb : Callbacks) (es : List (Nat × Outcome)) :
    ∀ ns : List Node, es.length < pending ns → decisions (run cb ns es).2 = [] := by
  induction es with
  | nil => intro ns _; rfl
  | cons e es ih =>
    intro ns h
    have hp := pending_settle cb ns e.1 e.2
    simp only [List.length_cons] at h
    rw [run_cons]
    simp only [decisions_append]
    rw [settle_decisions, onComplete_pending cb _ (by omega), ih _ (by omega)]
    rfl

theorem run_length (cb : Callbacks) (es : List (Nat × Outcome)) :
    ∀ ns : List Node, (run cb ns es).1.length = ns.length := by
  induction es with
  | nil => intro ns; rfl
  | cons e es ih => intro ns; rw [run_cons]; simp only []; rw [ih, settle_length]

/-- A node no event addresses is left as it was. -/
theorem run_untouched (cb : Callbacks) (j : Nat) (es : List (Nat × Outcome)) :
    ∀ ns : List Node, j ∉ es.map Prod.fst → (run cb ns es).1[j]? = ns[j]? := by
  induction es with
  | nil => intro ns _; rfl
  | cons e es ih =>
    intro ns h
    simp only [List.map_cons, List.mem_cons, not_or] at h
    rw [run_cons]
    simp only []
    rw [ih _ h.2, settle_fst, List.getElem?_modify_ne _ _ (fun hc => h.1 hc.symm)]

/-- When every node is addressed at most once, a node ends as its own
event settled it. -/
theorem run_touched (cb : Callbacks) (j : Nat) (o : Outcome) (es : List (Nat × Outcome)) :
    ∀ ns : List Node, (es.map Prod.fst).Nodup → (j, o) ∈ es →
      (run cb ns es).1[j]? = (ns[j]?).map (fun n => n.settled o) := by
  induction es with
  | nil => intro ns _ h; simp at h
  | cons e es ih =>
    intro ns hnd hmem
    simp only [List.map_cons, List.nodup_cons] at hnd
    rw [run_cons]
    simp only []
    rcases List.mem_cons.1 hmem with h | h
    · subst h
      rw [run_untouched cb _ es _ hnd.1, settle_fst, List.getElem?_modify_eq]
      rfl
    · have hj : e.1 ≠ j := by
        intro hc
        apply hnd.1
        rw [hc]
        exact List.mem_map.2 ⟨(j, o), h, rfl⟩
      rw [ih _ hnd.2 h, settle_fst, List.getElem?_modify_ne _ _ hj]

theorem event_of_index (es : List (Nat × Outcome)) (n : Nat)
    (h : (es.map Prod.fst).Perm (List.range n)) (j : Nat) (hj : j < n) :
    ∃ o, (j, o) ∈ es := by
  have hm : j ∈ es.map Prod.fst := h.mem_iff.2 (List.mem_range.2 hj)
  obtain ⟨e, he, rfl⟩ := List.mem_map.1 hm
  exact ⟨e.2, he⟩

theorem index_of_event (es : List (Nat × Outcome)) (n : Nat)
    (h : (es.map Prod.fst).Perm (List.range n)) (j : Nat) (o : Outcome) (hm : (j, o) ∈ es) :
    j < n :=
  List.mem_range.1 (h.mem_iff.1 (List.mem_map.2 ⟨(j, o), hm, rfl⟩))

theorem nodup_of_perm_range (es : List (Nat × Outcome)) (n : Nat)
    (h : (es.map Prod.fst).Perm (List.range n)) : (es.map Prod.fst).Nodup :=
  h.nodup_iff.2 (List.nodup_range n)

theorem run_all_checked (cb : Callbacks) (ns : List Node) (es : List (Nat × Outcome))
    (h : (es.map Prod.fst).Perm (List.range ns.length)) :
    (run cb ns es).1.all (fun elt => elt.checked) = true := by
  rw [List.all_eq_true]
  intro n hn
  obtain ⟨j, hj⟩ := List.mem_iff_getElem?.1 hn
  have hlt : j < ns.length := by
    have := (List.getElem?_eq_some_iff.1 hj).1
    rwa [run_length] at this
  obtain ⟨o, ho⟩ := event_of_index es _ h j hlt
  rw [run_touched cb j o es ns (nodup_of_perm_range es _ h) ho] at hj
  obtain ⟨n0, _, rfl⟩ := Option.map_eq_some'.1 hj
  exact settled_checked n0 o

theorem run_any_status (cb : Callbacks) (ns : List Node) (es : List (Nat × Outcome))
    (h : (es.map Prod.fst).Perm (List.range ns.length)) :
    (run cb ns es).1.any (fun elt => elt.status) = es.any (fun e => e.2.usable) := by
  rw [Bool.eq_iff_iff, List.any_eq_true, List.any_eq_true]
  constructor
  · rintro ⟨n, hn, hs⟩
    obtain ⟨j, hj⟩ := List.mem_iff_getElem?.1 hn
    have hlt : j < ns.length := by
      have := (List.getElem?_eq_some_iff.1 hj).1
      rwa [run_length] at this
    obtain ⟨o, ho⟩ := event_of_index es _ h j hlt
    rw [run_touched cb j o es ns (nodup_of_perm_range es _ h) ho] at hj
    obtain ⟨n0, _, rfl⟩ := Option.map_eq_some'.1 hj
    refine ⟨(j, o), ho, ?_⟩
    rw [← settled_status n0 o]
    exact hs
  · rintro ⟨⟨j, o⟩, ho, hu⟩
    have hlt := index_of_event es _ h j o ho
    have hget := run_touched cb j o es ns (nodup_of_perm_range es _ h) ho
    rw [List.getElem?_eq_getElem hlt] at hget
    refine ⟨(ns[j]).settled o, List.mem_iff_getElem?.2 ⟨j, hget⟩, ?_⟩
    rw [settled_status]
    exact hu

theorem onComplete_settled (cb : Callbacks) (ns : List Node)
    (h : ns.all (fun elt => elt.checked) = true) :
    decisions (onComplete cb ns) = [ns.any (fun elt => elt.status)] := by
  simp only [onComplete, h, if_true]
  cases hs : ns.any (fun elt => elt.status) <;> cases hc : cb.on_success <;>
    simp [decisions, Effect.decision]

theorem pending_buildStatus (dir : Directory) : pending (buildStatus dir) = dir.length := by
  simp only [pending, buildStatus]
  induction dir with
  | nil => rfl
  | cons e dir ih => simp [List.countP_cons, ih]

theorem length_buildStatus (dir : Directory) : (buildStatus dir).length = dir.length := by
  simp [buildStatus]

/-- A complete run from nodes that are all pending ends with the `complete`
callback of the last settle event, on the final node array; nothing before
it is an aggregate decision. -/
theorem run_split (cb : Callbacks) (ns : List Node) (es : List (Nat × Outcome))
    (hpend : pending ns = ns.length) (hpos : 0 < ns.length)
    (h : (es.map Prod.fst).Perm (List.range ns.length)) :
    ∃ pre : List Effect,
      (run cb ns es).2 = pre ++ onComplete cb (run cb ns es).1 ∧ decisions pre = [] := by
  have hlen : es.length = ns.length := by
    have := h.length_eq
    simpa using this
  have hne : es ≠ [] := by
    intro hc
    rw [hc] at hlen
    simp at hlen
    omega
  obtain ⟨pre, h1, h2⟩ :=
    settle_snd cb (run cb ns es.dropLast).1 (es.getLast hne).1 (es.getLast hne).2
  have key : run cb ns es
      = ((settle cb (run cb ns es.dropLast).1 (es.getLast hne).1 (es.getLast hne).2).1,
         (run cb ns es.dropLast).2
           ++ (settle cb (run cb ns es.dropLast).1 (es.getLast hne).1 (es.getLast hne).2).2) := by
    conv_lhs => rw [← List.dropLast_append_getLast hne]
    rw [run_append, run_cons, run_nil]
    simp
  refine ⟨(run cb ns es.dropLast).2 ++ pre, ?_, ?_⟩
  · rw [key]
    simp only []
    rw [h1, List.append_assoc]
  · rw [decisions_append, h2, run_decisions_early cb es.dropLast ns (by
      rw [List.length_dropLast, hpend]; omega)]
    rfl

/-- The aggregate decisions of a complete run from nodes that are all
pending: one decision, made by the last settle event. -/
theorem run_decisions_final (cb : Callbacks) (ns : List Node) (es : List (Nat × Outcome))
    (hpend : pending ns = ns.length) (hpos : 0 < ns.length)
    (h : (es.map Prod.fst).Perm (List.range ns.length)) :
    decisions (run cb ns es).2 = [es.any (fun e => e.2.usable)] := by
  obtain ⟨pre, h1, h2⟩ := run_split cb ns es hpend hpos h
  rw [h1, decisions_append, h2, List.nil_append,
    onComplete_settled cb _ (run_all_checked cb ns es h), run_any_status cb ns es h]

theorem decision_none_of_decisions_nil (l : List Effect) (h : decisions l = []) :
    ∀ e ∈ l, e.decision = none := by
  intro e he
  simp only [decisions, List.filterMap_eq_nil_iff] at h
  exact h e he

theorem isOnSuccess_false_of_decision_none (e : Effect) (h : e.decision = none) :
    e.isOnSuccess = false := by
  cases e <;> simp_all [Effect.decision, Effect.isOnSuccess]

theorem countP_isOnSuccess_le (l : List Effect) :
    l.countP Effect.isOnSuccess ≤ (decisions l).count true := by
  induction l with
  | nil => simp [decisions]
  | cons e l ih =>
    simp only [decisions] at ih ⊢
    cases e with
    | onSuccess nodes =>
      simp [List.filterMap_cons, Effect.decision, Effect.isOnSuccess, List.countP_cons,
        List.count_cons]
      exact ih
    | onError n t x =>
      simp [List.filterMap_cons, Effect.decision, Effect.isOnSuccess, List.countP_cons]
      exact ih
    | alert c t =>
      simp only [List.countP_cons, Effect.isOnSuccess, List.filterMap_cons]
      cases hd : (Effect.alert c t).decision with
      | none => simpa using ih
      | some b =>
        simp only [List.count_cons]
        simp
        omega

theorem decision_some_false_iff (e : Effect) :
    e.decision = some false ↔ e = requestFailed := by
  cases e with
  | onSuccess nodes => simp [Effect.decision, requestFailed]
  | onError n t x => simp [Effect.decision, requestFailed]
  | alert c t =>
    simp only [Effect.decision, requestFailed]
    by_cases h1 : c = "alert-success" ∧ t = "Request completed"
    · simp only [h1, and_self, if_true]
      obtain ⟨rfl, rfl⟩ := h1
      decide
    · simp only [h1, if_false]
      by_cases h2 : c = "alert-error" ∧ t = "Request failed"
      · simp [h2]
      · simp only [h2, if_false]
        constructor
        · intro h; cases h
        · intro h
          injection h with ha hb
          exact absurd ⟨ha, hb⟩ h2

theorem count_requestFailed (l : List Effect) :
    l.count requestFailed = (decisions l).count false := by
  induction l with
  | nil => simp [decisions]
  | cons e l ih =>
    simp only [decisions] at ih ⊢
    rw [List.count_cons, ih, List.filterMap_cons]
    have hiff := decision_some_false_iff e
    cases hd : e.decision with
    | none =>
      have : ¬ e = requestFailed := fun hc => by
        rw [hiff.2 hc] at hd; cases hd
      simp [this]
    | some b =>
      cases b with
      | false =>
        have : e = requestFailed := hiff.1 hd
        simp [this, List.count_cons]
      | true =>
        have : ¬ e = requestFailed := fun hc => by
          rw [hiff.2 hc] at hd; cases hd
        simp [this, List.count_cons]

theorem all_checked_false_of_pending (ns : List Node) (h : 0 < pending ns) :
    ns.all (fun elt => elt.checked) = false := by
  rw [pending, List.countP_pos_iff] at h
  obtain ⟨n, hn, hc⟩ := h
  rw [List.all_eq_false]
  exact ⟨n, hn, by simpa using hc⟩

theorem pending_run (cb : Callbacks) (es : List (Nat × Outcome)) :
    ∀ ns : List Node, pending ns ≤ pending (run cb ns es).1 + es.length := by
  induction es with
  | nil => intro ns; simp [run_nil]
  | cons e es ih =>
    intro ns
    rw [run_cons]
    simp only [List.length_cons]
    have h1 := pending_settle cb ns e.1 e.2
    have h2 := ih (settle cb ns e.1 e.2).1
    omega

theorem usable_iff (o : Outcome) :
    o.usable = true ↔ ∃ json, o = Outcome.success json ∧ isEmptyObject json = false := by
  cases o with
  | success json => simp [Outcome.usable]
  | error t x => simp [Outcome.usable]

theorem any_usable_perm (es es' : List (Nat × Outcome)) (h : es'.Perm es) :
    es'.any (fun e => e.2.usable) = es.any (fun e => e.2.usable) := by
  rw [Bool.eq_iff_iff, List.any_eq_true, List.any_eq_true]
  constructor
  · rintro ⟨e, he, hu⟩; exact ⟨e, h.mem_iff.1 he, hu⟩
  · rintro ⟨e, he, hu⟩; exact ⟨e, h.mem_iff.2 he, hu⟩

/-- The node array of the single-node branch of `ui.query` is the one
`buildStatus` gives for the one-entry directory of the selected node. -/
theorem query_single_buildStatus (neighbours : Directory) (checked_server req_url : String)
    (is_cluster : Bool) (ns : List Node) (reqs : List (Nat × String))
    (h : query neighbours checked_server req_url is_cluster = QueryStart.single ns reqs) :
    ∃ e, neighbours.lookup checked_server = some e ∧ ns = buildStatus [(checked_server, e)] := by
  unfold query at h
  split at h
  · cases h
  · split at h
    · cases h
    · rename_i e he
      injection h with h1 h2
      exact ⟨e, he, h1.symm⟩

/-- C1: for every node array `ui.query` builds from a directory of N ≥ 1
entries and every order in which the N requests settle, each exactly once
(as success, empty success or transport error), `on_success` is called at
most once; while fewer than N settle events have been processed it has not
been called and some node still has `checked = false`; and a call of it
receives the final node array, of N nodes that are all checked. -/
theorem on_success_at_most_once (cb : Callbacks) (dir : Directory)
    (events : List (Nat × Outcome)) (hN : 1 ≤ dir.length)
    (hsettle : (events.map Prod.fst).Perm (List.range dir.length)) :
    (run cb (buildStatus dir) events).2.countP Effect.isOnSuccess ≤ 1 ∧
    (∀ k, k < dir.length →
      (∀ e ∈ (run cb (buildStatus dir) (events.take k)).2, e.isOnSuccess = false) ∧
      (run cb (buildStatus dir) (events.take k)).1.all (fun elt => elt.checked) = false) ∧
    (∀ nodes, Effect.onSuccess nodes ∈ (run cb (buildStatus dir) events).2 →
      nodes = (run cb (buildStatus dir) events).1 ∧ nodes.length = dir.length ∧
      nodes.all (fun elt => elt.checked) = true) := by
  have hpend : pending (buildStatus dir) = (buildStatus dir).length := by
    rw [pending_buildStatus, length_buildStatus]
  have hpos : 0 < (buildStatus dir).length := by rw [length_buildStatus]; omega
  have hperm : (events.map Prod.fst).Perm (List.range (buildStatus dir).length) := by
    rw [length_buildStatus]; exact hsettle
  refine ⟨?_, ?_, ?_⟩
  · have h := countP_isOnSuccess_le (run cb (buildStatus dir) events).2
    rw [run_decisions_final cb _ events hpend hpos hperm] at h
    have h2 : List.count true [events.any (fun e => e.2.usable)] ≤ 1 := by
      cases events.any (fun e => e.2.usable) <;> simp
    omega
  · intro k hk
    have hlen : (events.take k).length < pending (buildStatus dir) := by
      rw [pending_buildStatus, List.length_take]
      omega
    constructor
    · intro e he
      exact isOnSuccess_false_of_decision_none e
        (decision_none_of_decisions_nil _ (run_decisions_early cb _ _ hlen) e he)
    · apply all_checked_false_of_pending
      have := pending_run cb (events.take k) (buildStatus dir)
      omega
  · intro nodes hmem
    obtain ⟨pre, h1, h2⟩ := run_split cb _ events hpend hpos hperm
    have hall := run_all_checked cb _ events hperm
    rw [h1] at hmem
    rcases List.mem_append.1 hmem with hm | hm
    · have := decision_none_of_decisions_nil pre h2 _ hm
      simp [Effect.decision] at this
    · simp only [onComplete, hall, if_true] at hm
      have hnodes : nodes = (run cb (buildStatus dir) events).1 := by
        split at hm
        · split at hm
          · simpa using hm
          · simp at hm
        · simp at hm
      subst hnodes
      exact ⟨rfl, by rw [run_length, length_buildStatus], hall⟩

/-- Witness of C1 on the three-node scenario of the specification: with
both continuations supplied, the trace is the error hook for A followed by
the one `on_success` call. -/
theorem on_success_at_most_once_witness :
    (1 ≤ dirABC.length ∧ (eventsBAC.map Prod.fst).Perm (List.range dirABC.length)) ∧
    (run ⟨true, true⟩ (buildStatus dirABC) eventsBAC).2.countP Effect.isOnSuccess ≤ 1 ∧
    (run ⟨true, true⟩ (buildStatus dirABC) eventsBAC).2
      = [Effect.onError ⟨"A", "http://a.example/", "a.example", true, [], false⟩
            "timeout" "timeout",
         Effect.onSuccess
           [⟨"A", "http://a.example/", "a.example", true, [], false⟩,
            ⟨"B", "http://b.example/", "b.example", true, [("version", "1.7")], true⟩,
            ⟨"C", "http://c.example/", "c.example", true, [], false⟩]] :=
  ⟨⟨by decide, by decide⟩,
    (on_success_at_most_once ⟨true, true⟩ dirABC eventsBAC (by decide) (by decide)).1,
    by decide⟩

/-- C2: for every assignment of outcomes to N ≥ 1 nodes and every order of
arrival, once all nodes have settled each node is checked and has
`status = true` exactly when its own request was a transport success with
a non-empty payload; the run ends with the success branch of `complete`
(`on_success`, or the "Request completed" alert without it) if some node
has `status = true` and with the "Request failed" alert otherwise; that is
the only aggregate decision of the run, it is the success branch exactly
when some request succeeded with a non-empty payload, and it is the same
for every arrival order of the same outcomes. -/
theorem aggregate_success_iff (cb : Callbacks) (dir : Directory)
    (events : List (Nat × Outcome)) (hN : 1 ≤ dir.length)
    (hsettle : (events.map Prod.fst).Perm (List.range dir.length)) :
    (∀ i o, (i, o) ∈ events →
      ∃ n, (run cb (buildStatus dir) events).1[i]? = some n ∧ n.checked = true ∧
        (n.status = true ↔ ∃ json, o = Outcome.success json ∧ isEmptyObject json = false)) ∧
    (run cb (buildStatus dir) events).2.getLast?
      = some (if (run cb (buildStatus dir) events).1.any (fun elt => elt.status) then
          (if cb.on_success then Effect.onSuccess (run cb (buildStatus dir) events).1
           else Effect.alert "alert-success" "Request completed")
         else requestFailed) ∧
    decisions (run cb (buildStatus dir) events).2
      = [(run cb (buildStatus dir) events).1.any (fun elt => elt.status)] ∧
    ((run cb (buildStatus dir) events).1.any (fun elt => elt.status) = true ↔
      ∃ i json, (i, Outcome.success json) ∈ events ∧ isEmptyObject json = false) ∧
    (∀ events' : List (Nat × Outcome), events'.Perm events →
      decisions (run cb (buildStatus dir) events').2
        = decisions (run cb (buildStatus dir) events).2) := by
  have hpend : pending (buildStatus dir) = (buildStatus dir).length := by
    rw [pending_buildStatus, length_buildStatus]
  have hpos : 0 < (buildStatus dir).length := by rw [length_buildStatus]; omega
  have hperm : (events.map Prod.fst).Perm (List.range (buildStatus dir).length) := by
    rw [length_buildStatus]; exact hsettle
  have hall := run_all_checked cb _ events hperm
  have hany := run_any_status cb _ events hperm
  refine ⟨?_, ?_, ?_, ?_, ?_⟩
  · intro i o hmem
    have hlt : i < (buildStatus dir).length := index_of_event events _ hperm i o hmem
    have hget := run_touched cb i o events (buildStatus dir)
      (nodup_of_perm_range events _ hperm) hmem
    rw [List.getElem?_eq_getElem hlt] at hget
    refine ⟨_, hget, settled_checked _ o, ?_⟩
    rw [settled_status, usable_iff]
  · obtain ⟨pre, h1, _⟩ := run_split cb _ events hpend hpos hperm
    rw [h1]
    simp only [onComplete, hall, if_true]
    cases hs : (run cb (buildStatus dir) events).1.any (fun elt => elt.status) <;>
      cases hc : cb.on_success <;> simp [requestFailed]
  · rw [run_decisions_final cb _ events hpend hpos hperm, hany]
  · rw [hany, List.any_eq_true]
    constructor
    · rintro ⟨⟨i, o⟩, hmem, hu⟩
      obtain ⟨json, rfl, hj⟩ := (usable_iff o).1 hu
      exact ⟨i, json, hmem, hj⟩
    · rintro ⟨i, json, hmem, hj⟩
      exact ⟨(i, Outcome.success json), hmem, (usable_iff _).2 ⟨json, rfl, hj⟩⟩
  · intro events' hp
    have hperm' : (events'.map Prod.fst).Perm (List.range (buildStatus dir).length) :=
      (hp.map Prod.fst).trans hperm
    rw [run_decisions_final cb _ events hpend hpos hperm,
      run_decisions_final cb _ events' hpend hpos hperm', any_usable_perm events events' hp]

/-- Witness of C2 on the three-node scenario: only B has `status = true`,
and without an `on_success` continuation the run ends with the
"Request completed" alert. -/
theorem aggregate_success_iff_witness :
    (1 ≤ dirABC.length ∧ (eventsBAC.map Prod.fst).Perm (List.range dirABC.length)) ∧
    decisions (run ⟨false, false⟩ (buildStatus dirABC) eventsBAC).2
      = [(run ⟨false, false⟩ (buildStatus dirABC) eventsBAC).1.any (fun elt => elt.status)] ∧
    (run ⟨false, false⟩ (buildStatus dirABC) eventsBAC).1.map (fun elt => elt.status)
      = [false, true, false] ∧
    (run ⟨false, false⟩ (buildStatus dirABC) eventsBAC).2.getLast?
      = some (Effect.alert "alert-success" "Request completed") :=
  ⟨⟨by decide, by decide⟩,
    (aggregate_success_iff ⟨false, false⟩ dirABC eventsBAC (by decide) (by decide)).2.2.1,
    by decide, by decide⟩

/-- C3: for every node array of N ≥ 1 nodes in which every request fails
(transport error or empty payload), in any settle order, `on_success` is
never called and the "Request failed" alert is raised exactly once: it is
the last effect of the run, and no run of fewer than N settle events has
raised it. -/
theorem all_failed_single_alert (cb : Callbacks) (dir : Directory)
    (events : List (Nat × Outcome)) (hN : 1 ≤ dir.length)
    (hsettle : (events.map Prod.fst).Perm (List.range dir.length))
    (hfail : ∀ e ∈ events, (∃ t x, e.2 = Outcome.error t x) ∨
      (∃ json, e.2 = Outcome.success json ∧ isEmptyObject json = true)) :
    (∀ e ∈ (run cb (buildStatus dir) events).2, e.isOnSuccess = false) ∧
    (run cb (buildStatus dir) events).2.count requestFailed = 1 ∧
    (run cb (buildStatus dir) events).2.getLast? = some requestFailed ∧
    (∀ k, k < dir.length →
      (run cb (buildStatus dir) (events.take k)).2.count requestFailed = 0) := by
  have hpend : pending (buildStatus dir) = (buildStatus dir).length := by
    rw [pending_buildStatus, length_buildStatus]
  have hpos : 0 < (buildStatus dir).length := by rw [length_buildStatus]; omega
  have hperm : (events.map Prod.fst).Perm (List.range (buildStatus dir).length) := by
    rw [length_buildStatus]; exact hsettle
  have hnone : events.any (fun e => e.2.usable) = false := by
    rw [List.any_eq_false]
    intro e he
    rcases hfail e he with ⟨t, x, h⟩ | ⟨json, h, hj⟩
    · simp [h, Outcome.usable]
    · simp [h, Outcome.usable, hj]
  have hdec := run_decisions_final cb _ events hpend hpos hperm
  rw [hnone] at hdec
  have hany := run_any_status cb _ events hperm
  rw [hnone] at hany
  have hall := run_all_checked cb _ events hperm
  refine ⟨?_, ?_, ?_, ?_⟩
  · intro e he
    have hle := countP_isOnSuccess_le (run cb (buildStatus dir) events).2
    rw [hdec] at hle
    have h0 : (run cb (buildStatus dir) events).2.countP Effect.isOnSuccess = 0 := by
      simpa using hle
    rw [List.countP_eq_zero] at h0
    simpa using h0 e he
  · rw [count_requestFailed, hdec]
    rfl
  · obtain ⟨pre, h1, _⟩ := run_split cb _ events hpend hpos hperm
    rw [h1]
    simp [onComplete, hall, hany, requestFailed]
  · intro k hk
    have hlen : (events.take k).length < pending (buildStatus dir) := by
      rw [pending_buildStatus, List.length_take]
      omega
    rw [count_requestFailed, run_decisions_early cb _ _ hlen]
    rfl

/-- Witness of C3 on the two-node scenario of the specification: both
nodes time out; without an error hook each raises its own alert, and the
one "Request failed" alert follows the second. -/
theorem all_failed_single_alert_witness :
    (1 ≤ dirAB.length ∧ (eventsTimeout.map Prod.fst).Perm (List.range dirAB.length)) ∧
    (run ⟨true, false⟩ (buildStatus dirAB) eventsTimeout).2.count requestFailed = 1 ∧
    (run ⟨true, false⟩ (buildStatus dirAB) eventsTimeout).2
      = [Effect.alert "alert-error" "Cannot receive data from b.example: timeout",
         Effect.alert "alert-error" "Cannot receive data from a.example: timeout",
         Effect.alert "alert-error" "Request failed"] :=
  ⟨⟨by decide, by decide⟩,
    (all_failed_single_alert ⟨true, false⟩ dirAB eventsTimeout (by decide) (by decide)
      (by
        intro e he
        simp only [eventsTimeout, List.mem_cons, List.mem_singleton, List.not_mem_nil,
          or_false] at he
        rcases he with rfl | rfl <;> exact Or.inl ⟨_, _, rfl⟩)).2.1,
    by decide⟩

theorem onComplete_no_node_report (cb : Callbacks) (ns : List Node) :
    ∀ e ∈ onComplete cb ns, e.isOnError = false ∧
      ∀ host err : String,
        e ≠ Effect.alert "alert-error" ("Cannot receive data from " ++ host ++ ": " ++ err) := by
  intro e he
  simp only [onComplete] at he
  have hne : ∀ host err : String,
      Effect.alert "alert-error" "Request failed"
        ≠ Effect.alert "alert-error" ("Cannot receive data from " ++ host ++ ": " ++ err) := by
    intro host err hc
    injection hc with _ h2
    exact cannot_receive_ne host err h2.symm
  split at he
  · split at he
    · split at he
      · simp only [List.mem_singleton] at he
        subst he
        exact ⟨rfl, fun _ _ hc => by cases hc⟩
      · simp only [List.mem_singleton] at he
        subst he
        refine ⟨rfl, fun _ _ hc => ?_⟩
        injection hc with h1 _
        exact absurd h1 (by decide)
    · simp only [List.mem_singleton] at he
      subst he
      exact ⟨rfl, hne⟩
  · simp at he

/-- C5, the claim as stated fails: node A of `dirAB` settles as a transport
success with an empty payload (after B answered with a payload). It ends
checked with `status = false`, yet with an error hook supplied the hook is
not called, and without one no alert is raised: in both cases the only
effect of the run is the `on_success` call. -/
theorem empty_payload_not_reported :
    (run ⟨true, true⟩ (buildStatus dirAB) eventsEmpty).1.map
        (fun elt => (elt.name, elt.checked, elt.status))
      = [("A", true, false), ("B", true, true)] ∧
    (run ⟨true, true⟩ (buildStatus dirAB) eventsEmpty).2
      = [Effect.onSuccess (run ⟨true, true⟩ (buildStatus dirAB) eventsEmpty).1] ∧
    (run ⟨true, false⟩ (buildStatus dirAB) eventsEmpty).2
      = [Effect.onSuccess (run ⟨true, false⟩ (buildStatus dirAB) eventsEmpty).1] := by
  decide

/-- C5 as amended: when the request of node `ind` settles as a transport
failure, the node is marked `status = false`, `checked = true` and
`queryServer` calls the error hook with that node and the failure details
when a hook was supplied, and otherwise raises the one alert
"Cannot receive data from <host>: <errorThrown>"; only the effects of
`complete` follow. When it settles as a transport success with an empty
payload, the node is marked `checked = true`, `status = false` and the
effects are those of `complete` alone: no hook call and no alert for the
node. -/
theorem node_failure_reporting (cb : Callbacks) (ns : List Node) (ind : Nat)
    (h : ind < ns.length) (t x : String) (json : Json) (hj : isEmptyObject json = true) :
    ((settle cb ns ind (Outcome.error t x)).1[ind]?
        = some { ns[ind] with status := false, checked := true } ∧
      (settle cb ns ind (Outcome.error t x)).2
        = (if cb.on_error then
            Effect.onError { ns[ind] with status := false, checked := true } t x
           else
            Effect.alert "alert-error"
              ("Cannot receive data from " ++ ns[ind].host ++ ": " ++ x))
          :: onComplete cb (settle cb ns ind (Outcome.error t x)).1) ∧
    ((settle cb ns ind (Outcome.success json)).1[ind]?
        = some { ns[ind] with checked := true, status := false } ∧
      (settle cb ns ind (Outcome.success json)).2
        = onComplete cb (settle cb ns ind (Outcome.success json)).1 ∧
      ∀ e ∈ (settle cb ns ind (Outcome.success json)).2, e.isOnError = false ∧
        ∀ host err : String,
          e ≠ Effect.alert "alert-error"
            ("Cannot receive data from " ++ host ++ ": " ++ err)) := by
  have hget : ∀ o : Outcome, (settle cb ns ind o).1[ind]? = some ((ns[ind]).settled o) := by
    intro o
    rw [settle_fst, List.getElem?_modify_eq, List.getElem?_eq_getElem h]
    rfl
  refine ⟨⟨?_, ?_⟩, ?_, ?_, ?_⟩
  · rw [hget]; rfl
  · have hnode : (List.modify (fun n : Node => { n with checked := true }) ind
        (List.modify (fun n : Node => { n with status := false }) ind ns)).get? ind
        = some { ns[ind] with status := false, checked := true } := by
      rw [List.modify_modify_eq, List.get?_eq_getElem?, List.getElem?_modify_eq,
        List.getElem?_eq_getElem h]
      rfl
    simp only [settle, onErrorHandler, updateNode, hnode]
    cases cb.on_error <;> simp
  · rw [hget]
    simp [Node.settled, hj]
  · rfl
  · intro e he
    exact onComplete_no_node_report cb _ e he

/-- Witness of C5 as amended, on the first node of `dirAB`: a timeout with
an error hook supplied, and an empty payload. -/
theorem node_failure_reporting_witness :
    (0 < (buildStatus dirAB).length ∧ isEmptyObject ([] : Json) = true) ∧
    (settle ⟨true, true⟩ (buildStatus dirAB) 0 (Outcome.error "timeout" "timeout")).2
      = [Effect.onError ⟨"A", "http://a.example/", "a.example", true, [], false⟩
          "timeout" "timeout"] ∧
    (settle ⟨true, true⟩ (buildStatus dirAB) 0 (Outcome.success [])).2 = [] :=
  ⟨⟨by decide, by decide⟩,
    ((node_failure_reporting ⟨true, true⟩ (buildStatus dirAB) 0 (by decide)
      "timeout" "timeout" [] (by decide)).1.2).trans (by decide),
    by decide⟩

/-- C4: `ui.query` sends the discovery request exactly when `checked_server`
is "All SERVERS" or `is_cluster` is set; on an empty discovery response
`neighbours` becomes the single entry `local` with the page's host and
location, the node array is the one node built from it, with
`checked = false` and `status = false`, and one request is issued, to the
page's location followed by the path; and for every discovery response
the node array is not empty. -/
theorem empty_discovery_local (location : Location) (req_url : String) :
    (∀ (neighbours : Directory) (checked_server : String) (is_cluster : Bool),
      query neighbours checked_server req_url is_cluster = QueryStart.discovery ↔
        (checked_server = "All SERVERS" ∨ is_cluster = true)) ∧
    discoverySuccess location [] req_url
      = ([("local", { host := location.host, url := location.href })],
         [{ name := "local", url := location.href, host := location.host, checked := false,
            data := [], status := false }],
         [(0, location.href ++ req_url)]) ∧
    (∀ data : Directory,
      (discoverySuccess location data req_url).2.1 ≠ [] ∧
      (discoverySuccess location data req_url).2.2.length
        = (discoverySuccess location data req_url).2.1.length) := by
  refine ⟨?_, rfl, ?_⟩
  · intro neighbours checked_server is_cluster
    unfold query
    constructor
    · intro hq
      split at hq
      · rename_i hc
        simpa using hc
      · split at hq <;> cases hq
    · intro hc
      have : (decide (checked_server = "All SERVERS") || is_cluster) = true := by
        simpa using hc
      simp [this]
  · intro data
    constructor
    · cases data with
      | nil => simp [discoverySuccess, resolveNeighbours, buildStatus, isEmptyObject]
      | cons e data => simp [discoverySuccess, resolveNeighbours, buildStatus, isEmptyObject]
    · simp [discoverySuccess, fanOut]

/-! ## Properties of the password check -/

theorem matchStar_end (lo hi : Nat) (k : Bool → List Nat → Bool)
    (hk : ∀ b s, k b s = s.isEmpty) (s : List Nat) :
    ∀ b : Bool, matchStar lo hi k b s
      = s.all (fun c => decide (lo ≤ c) && decide (c ≤ hi)) := by
  induction s with
  | nil => intro b; simp [matchStar, hk]
  | cons c cs ih =>
    intro b
    simp [matchStar, hk, ih]

theorem searchFrom_bol_false (p : List Term) (s : List Nat) :
    searchFrom (Term.bol :: p) false s = false := by
  induction s with
  | nil => simp [searchFrom, matchTerms]
  | cons c cs ih => simp [searchFrom, matchTerms, ih]

theorem searchFrom_passwordPattern (s : List Nat) :
    searchFrom passwordPattern true s
      = s.all (fun c => decide (0x20 ≤ c) && decide (c ≤ 0x7e)) := by
  have hk : ∀ (b : Bool) (s : List Nat), matchTerms [Term.eol] b s = s.isEmpty := by
    intro b s
    simp [matchTerms]
  have hm : ∀ s : List Nat, matchTerms passwordPattern true s
      = matchStar 0x20 0x7e (matchTerms [Term.eol]) true s := fun _ => rfl
  cases s with
  | nil => rw [searchFrom, hm, matchStar_end _ _ _ hk]
  | cons c cs =>
    have h2 : searchFrom passwordPattern false cs = false := searchFrom_bol_false _ cs
    rw [searchFrom, hm, matchStar_end _ _ _ hk, h2, Bool.or_false]

theorem utf16_all (c : Char) :
    (utf16 c).all (fun u => decide (0x20 ≤ u) && decide (u ≤ 0x7e))
      = (decide (0x20 ≤ c.toNat) && decide (c.toNat ≤ 0x7e)) := by
  unfold utf16
  split
  · simp
  · rename_i h
    have h1 : ¬ (c.toNat ≤ 0x7e) := by omega
    have h2 : ¬ (0xD800 + (c.toNat - 0x10000) / 0x400 ≤ 0x7e) := by omega
    simp [h1, h2]

theorem codeUnits_all (cs : List Char) :
    (codeUnits cs).all (fun u => decide (0x20 ≤ u) && decide (u ≤ 0x7e))
      = cs.all (fun c => decide (0x20 ≤ c.toNat) && decide (c.toNat ≤ 0x7e)) := by
  induction cs with
  | nil => rfl
  | cons c cs ih =>
    simp only [codeUnits, List.all_append, List.all_cons, ih, utf16_all]

/-- The pattern accepts a string exactly when every character of it lies
in the range 0x20 to 0x7e. -/
theorem test_passwordPattern (password : String) :
    test passwordPattern password
      = password.data.all (fun c => decide (0x20 ≤ c.toNat) && decide (c.toNat ≤ 0x7e)) := by
  rw [test, searchFrom_passwordPattern, codeUnits_all]

/-- C6: for every password submitted to the connect form, the submission
is rejected locally (the "Invalid characters in the password" alert and
the focus call are its only effects: no request, nothing but the call
record changes) if and only if the string has a character outside the
range 0x20 to 0x7e; it produces the `auth` request, carrying the password
in the `Password` header, if and only if every character lies in that
range; the empty string produces the request. -/
theorem password_validation (password : String) (s : State) :
    (submit password s
        = s.log
          [Call.alertMessage "alert-modal alert-error" "Invalid characters in the password",
           Call.dom "focus" "#connectPassword"]
      ↔ ∃ c ∈ password.data, c.toNat < 0x20 ∨ 0x7e < c.toNat) ∧
    (submit password s = s.log [Call.ajax "GET" "auth" [("Password", password)]]
      ↔ ∀ c ∈ password.data, 0x20 ≤ c.toNat ∧ c.toNat ≤ 0x7e) ∧
    { submit password s with calls := s.calls } = s ∧
    submit "" s = s.log [Call.ajax "GET" "auth" [("Password", "")]] := by
  have htest := test_passwordPattern password
  have hne : s.log
        [Call.alertMessage "alert-modal alert-error" "Invalid characters in the password",
         Call.dom "focus" "#connectPassword"]
      ≠ s.log [Call.ajax "GET" "auth" [("Password", password)]] := by
    intro hc
    have := congrArg State.calls hc
    simp [State.log] at this
  cases ht : test passwordPattern password with
  | false =>
    have hsub : submit password s
        = s.log
          [Call.alertMessage "alert-modal alert-error" "Invalid characters in the password",
           Call.dom "focus" "#connectPassword"] := by
      simp [submit, ht]
    have hex : ∃ c ∈ password.data, c.toNat < 0x20 ∨ 0x7e < c.toNat := by
      rw [ht] at htest
      have h2 := htest.symm
      rw [List.all_eq_false] at h2
      obtain ⟨c, hc, hr⟩ := h2
      refine ⟨c, hc, ?_⟩
      simp only [Bool.and_eq_true, decide_eq_true_eq, not_and, not_le] at hr
      omega
    refine ⟨⟨fun _ => hex, fun _ => hsub⟩, ⟨?_, ?_⟩, ?_, ?_⟩
    · intro h
      rw [hsub] at h
      exact absurd h hne
    · intro hall
      obtain ⟨c, hc, hr⟩ := hex
      have := hall c hc
      omega
    · rw [hsub]; rfl
    · rfl
  | true =>
    have hsub : submit password s = s.log [Call.ajax "GET" "auth" [("Password", password)]] := by
      simp [submit, ht]
    have hall : ∀ c ∈ password.data, 0x20 ≤ c.toNat ∧ c.toNat ≤ 0x7e := by
      rw [ht] at htest
      have h2 := htest.symm
      rw [List.all_eq_true] at h2
      intro c hc
      simpa using h2 c hc
    refine ⟨⟨?_, ?_⟩, ⟨fun _ => hall, fun _ => hsub⟩, ?_, ?_⟩
    · intro h
      rw [hsub] at h
      exact absurd h.symm hne
    · rintro ⟨c, hc, hr⟩
      have := hall c hc
      omega
    · rw [hsub]; rfl
    · rfl

/-! ## Properties of the navigation and session state machine -/

theorem foldl_stop (l : List (String × Nat)) :
    ∀ s : State, l.foldl (fun acc kv => Visibility.stop kv.2 acc) s
      = { s with
          timers := s.timers.filter (fun t => decide (t ∉ l.map Prod.snd)),
          calls := s.calls ++ l.map (fun kv => Call.visibilityStop kv.2) } := by
  induction l with
  | nil => intro s; simp
  | cons kv l ih =>
    intro s
    rw [List.foldl_cons, ih]
    simp only [Visibility.stop, State.log, List.filter_filter, List.map_cons, List.mem_cons,
      not_or, List.append_assoc, List.singleton_append]
    congr 1
    apply List.filter_congr
    intro t _
    by_cases h1 : t = kv.2 <;> by_cases h2 : t ∈ l.map Prod.snd <;> simp [h1, h2]

theorem stopTimers_eq (s : State) :
    stopTimers s
      = { s with
          timers := s.timers.filter (fun t => decide (t ∉ s.timer_id.map Prod.snd)),
          calls := s.calls ++ s.timer_id.map (fun kv => Call.visibilityStop kv.2) } :=
  foldl_stop s.timer_id s

theorem destroyGraph_eq (k : String) (s : State) :
    ∃ cs, destroyGraph k s
      = { s with graphs := s.graphs.filter (fun x => decide (x ≠ k)), calls := cs } := by
  unfold destroyGraph
  split
  · exact ⟨_, rfl⟩
  · rename_i h
    refine ⟨s.calls, ?_⟩
    have : s.graphs.filter (fun x => decide (x ≠ k)) = s.graphs := by
      rw [List.filter_eq_self]
      intro a ha
      have : a ≠ k := fun hc => h (hc ▸ ha)
      simpa using this
    rw [this]

theorem destroyTable_eq (k : String) (s : State) :
    ∃ cs, destroyTable k s
      = { s with tables := s.tables.filter (fun x => decide (x ≠ k)), calls := cs } := by
  unfold destroyTable
  split
  · exact ⟨_, rfl⟩
  · rename_i h
    refine ⟨s.calls, ?_⟩
    have : s.tables.filter (fun x => decide (x ≠ k)) = s.tables := by
      rw [List.filter_eq_self]
      intro a ha
      have : a ≠ k := fun hc => h (hc ▸ ha)
      simpa using this
    rw [this]

/-- What `disconnect` has done when it calls `ui.connect`. -/
theorem teardown_eq (s : State) :
    ∃ cs, teardown s
      = { s with
          graphs := ((s.graphs.filter (fun x => decide (x ≠ "chart"))).filter
            (fun x => decide (x ≠ "rrd_pie"))).filter (fun x => decide (x ≠ "graph")),
          tables := ((s.tables.filter (fun x => decide (x ≠ "history"))).filter
            (fun x => decide (x ≠ "errors"))).filter (fun x => decide (x ≠ "symbols")),
          timers := s.timers.filter (fun t => decide (t ∉ s.timer_id.map Prod.snd)),
          sessionStorage := [],
          calls := cs } := by
  unfold teardown
  obtain ⟨c1, h1⟩ := destroyGraph_eq "chart" s
  rw [h1]
  obtain ⟨c2, h2⟩ := destroyGraph_eq "rrd_pie"
    { s with graphs := s.graphs.filter (fun x => decide (x ≠ "chart")), calls := c1 }
  rw [h2]
  obtain ⟨c3, h3⟩ := destroyGraph_eq "graph"
    { s with
      graphs := (s.graphs.filter (fun x => decide (x ≠ "chart"))).filter
        (fun x => decide (x ≠ "rrd_pie")),
      calls := c2 }
  dsimp only at h3 ⊢
  rw [h3]
  obtain ⟨c4, h4⟩ := destroyTable_eq "history"
    { s with
      graphs := ((s.graphs.filter (fun x => decide (x ≠ "chart"))).filter
        (fun x => decide (x ≠ "rrd_pie"))).filter (fun x => decide (x ≠ "graph")),
      calls := c3 }
  dsimp only at h4 ⊢
  rw [h4]
  obtain ⟨c5, h5⟩ := destroyTable_eq "errors"
    { s with
      graphs := ((s.graphs.filter (fun x => decide (x ≠ "chart"))).filter
        (fun x => decide (x ≠ "rrd_pie"))).filter (fun x => decide (x ≠ "graph")),
      tables := s.tables.filter (fun x => decide (x ≠ "history")),
      calls := c4 }
  dsimp only at h5 ⊢
  rw [h5]
  obtain ⟨c6, h6⟩ := destroyTable_eq "symbols"
    { s with
      graphs := ((s.graphs.filter (fun x => decide (x ≠ "chart"))).filter
        (fun x => decide (x ≠ "rrd_pie"))).filter (fun x => decide (x ≠ "graph")),
      tables := (s.tables.filter (fun x => decide (x ≠ "history"))).filter
        (fun x => decide (x ≠ "errors")),
      calls := c5 }
  dsimp only at h6 ⊢
  rw [h6, stopTimers_eq]
  exact ⟨_, rfl⟩

theorem isLogged_teardown (s : State) : isLogged (teardown s) = false := by
  obtain ⟨cs, h⟩ := teardown_eq s
  rw [h]
  rfl

/-- The function `disconnect` never reaches `displayUI`: it ends in the
connect dialog. -/
theorem disconnectWith_eq (d : State → Except Fault State)
    (readOnly : String → String → Option Bool) (s : State) :
    disconnectWith d readOnly s = Except.ok ((teardown s).log connectDialogCalls) := by
  have h := isLogged_teardown s
  unfold disconnectWith connectWith
  simp only [teardown] at h
  simp only [h]
  rfl

theorem assign_keys {α : Type} (obj : List (String × α)) (k : String) (v : α) :
    (assign obj k v).map Prod.fst
      = if k ∈ obj.map Prod.fst then obj.map Prod.fst else obj.map Prod.fst ++ [k] := by
  unfold assign
  by_cases h : obj.any (fun e => e.1 == k) = true
  · have hk : k ∈ obj.map Prod.fst := by
      rw [List.any_eq_true] at h
      obtain ⟨e, he, hek⟩ := h
      have : e.1 = k := by simpa using hek
      exact List.mem_map.2 ⟨e, he, this⟩
    simp only [h, if_true, hk, List.map_map]
    apply List.map_congr_left
    intro e _
    by_cases he : e.1 = k <;> simp [he]
  · have hk : k ∉ obj.map Prod.fst := by
      intro hc
      obtain ⟨e, he, hek⟩ := List.mem_map.1 hc
      apply h
      rw [List.any_eq_true]
      exact ⟨e, he, by simpa using hek⟩
    simp [h, hk]

theorem assign_value_mem {α : Type} (obj : List (String × α)) (k : String) (v : α) :
    v ∈ (assign obj k v).map Prod.snd := by
  unfold assign
  by_cases h : obj.any (fun e => e.1 == k) = true
  · rw [List.any_eq_true] at h
    obtain ⟨e, he, hek⟩ := h
    have hek' : e.1 = k := by simpa using hek
    simp only [List.any_eq_true]
    rw [if_pos ⟨e, he, hek⟩]
    rw [List.map_map]
    exact List.mem_map.2 ⟨e, he, by simp [hek']⟩
  · simp [h]

theorem assign_timerKeys (obj : List (String × Nat)) (k : String) (v : Nat)
    (hk : k = "status" ∨ k = "throughput") (h : obj.map Prod.fst ∈ timerKeys) :
    (assign obj k v).map Prod.fst ∈ timerKeys := by
  rw [assign_keys]
  simp only [timerKeys, List.mem_cons, List.mem_singleton, List.not_mem_nil, or_false] at h
  rcases hk with rfl | rfl <;> rcases h with h | h | h | h | h <;> rw [h] <;> decide

theorem timers_length_of_keys (obj : List (String × Nat))
    (h : obj.map Prod.fst ∈ timerKeys) : obj.length ≤ 2 := by
  have hl : (obj.map Prod.fst).length ≤ 2 := by
    simp only [timerKeys, List.mem_cons, List.mem_singleton, List.not_mem_nil, or_false] at h
    rcases h with h | h | h | h | h <;> rw [h] <;> decide
  simpa using hl

/-- The `switch` statement of `tabClick` returns; it leaves the disabled
controls and the pending callbacks alone; from a state where no timer runs
it leaves running exactly the timers the tab registers. -/
theorem tabSwitch_ok (d : State → Except Fault State)
    (readOnly : String → String → Option Bool) (tab_id : String) (s : State) :
    ∃ s', tabSwitch (disconnectWith d readOnly) tab_id s = Except.ok s' ∧
      s'.disabled = s.disabled ∧ s'.elements = s.elements ∧ s'.timeouts = s.timeouts ∧
      (s.timers = [] → s.timer_id.map Prod.fst ∈ timerKeys →
        TimersOk s' ∧ s'.timers.length = timersOf tab_id) ∧
      (s'.sessionStorage = [] ∨
        (tab_id ≠ "#disconnect" ∧ s'.sessionStorage = s.sessionStorage)) := by
  unfold tabSwitch
  by_cases h1 : tab_id = "#status_nav"
  · simp only [h1, if_true]
    refine ⟨_, rfl, rfl, rfl, rfl, ?_, Or.inr ⟨by decide, rfl⟩⟩
    intro ht hk
    refine ⟨⟨?_, ?_, ?_⟩, ?_⟩
    · simp [Visibility.every, State.log, ht]
    · intro t _
      simp only [Visibility.every, State.log, ht, List.nil_append, List.mem_singleton] at *
      subst_vars
      exact assign_value_mem _ _ _
    · exact assign_timerKeys _ _ _ (Or.inl rfl) hk
    · simp [Visibility.every, State.log, ht, timersOf]
  by_cases h2 : tab_id = "#throughput_nav"
  · simp only [h2, if_true]
    refine ⟨_, rfl, rfl, rfl, rfl, ?_, Or.inr ⟨by decide, rfl⟩⟩
    intro ht hk
    refine ⟨⟨?_, ?_, ?_⟩, ?_⟩
    · simp [Visibility.every, State.log, ht]
    · intro t _
      simp only [Visibility.every, State.log, ht, List.nil_append, List.mem_singleton] at *
      subst_vars
      exact assign_value_mem _ _ _
    · exact assign_timerKeys _ _ _ (Or.inr rfl) hk
    · simp [Visibility.every, State.log, ht, timersOf]
  have hT : timersOf tab_id = 0 := by simp [timersOf, h1, h2]
  have hplain : ∀ cs : List Call, s.timers = [] → s.timer_id.map Prod.fst ∈ timerKeys →
      TimersOk (s.log cs) ∧ (s.log cs).timers.length = timersOf tab_id := by
    intro cs ht hk
    rw [hT]
    exact ⟨⟨by simp [State.log, ht], by simp [State.log, ht], hk⟩, by simp [State.log, ht]⟩
  simp only [h1, h2, if_false]
  by_cases h3 : tab_id = "#configuration_nav"
  · simp only [h3, if_true]
    exact ⟨_, rfl, rfl, rfl, rfl, h3 ▸ hplain _, Or.inr ⟨by decide, rfl⟩⟩
  by_cases h4 : tab_id = "#symbols_nav"
  · simp only [h4, if_true]
    exact ⟨_, rfl, rfl, rfl, rfl, h4 ▸ hplain _, Or.inr ⟨by decide, rfl⟩⟩
  by_cases h5 : tab_id = "#history_nav"
  · simp only [h5, if_true]
    exact ⟨_, rfl, rfl, rfl, rfl, h5 ▸ hplain _, Or.inr ⟨by decide, rfl⟩⟩
  by_cases h6 : tab_id = "#disconnect"
  · simp only [h6, if_true]
    rw [disconnectWith_eq]
    obtain ⟨cs, hcs⟩ := teardown_eq s
    refine ⟨_, rfl, ?_, ?_, ?_, ?_, Or.inl ?_⟩
    · rw [hcs]; rfl
    · rw [hcs]; rfl
    · rw [hcs]; rfl
    · intro ht hk
      rw [hcs, ← h6, hT]
      refine ⟨⟨?_, ?_, ?_⟩, ?_⟩
      · simp [State.log, ht]
      · simp [State.log, ht]
      · exact hk
      · simp [State.log, ht]
    · rw [hcs]; rfl
  · simp only [h3, h4, h5, h6, if_false]
    refine ⟨s, rfl, rfl, rfl, rfl, ?_, Or.inr ⟨h6, rfl⟩⟩
    intro ht hk
    rw [hT]
    exact ⟨⟨by simp [ht], by simp [ht], hk⟩, by simp [ht]⟩

theorem disable_fields (s : State) (c : String) :
    (s.disable c).timers = s.timers ∧ (s.disable c).timer_id = s.timer_id ∧
    (s.disable c).elements = s.elements ∧ (s.disable c).timeouts = s.timeouts ∧
    (s.disable c).sessionStorage = s.sessionStorage := by
  unfold State.disable
  split <;> exact ⟨rfl, rfl, rfl, rfl, rfl⟩

theorem stopTimers_clears (s : State) (h : ∀ t ∈ s.timers, t ∈ s.timer_id.map Prod.snd) :
    (stopTimers s).timers = [] := by
  rw [stopTimers_eq]
  simp only [List.filter_eq_nil_iff]
  intro t ht
  simpa using h t ht

/-- The function `tabClick` returns whenever it may make one nested call:
it leaves a state with a disabled control alone, and otherwise disables
the control, registers its callback and runs the timers of the tab it
resolved. -/
theorem tabClick_ok (fuel : Nat) (readOnly : String → String → Option Bool)
    (active : Option String) (id : String) (s : State) :
    ∃ s', tabClick (fuel + 1) readOnly active id s = Except.ok s' ∧
      (s.isDisabled id = true → s' = s) ∧
      (s.isDisabled id = false →
        s'.disabled = (s.disable id).disabled ∧ s'.elements = s.elements ∧
        s'.timeouts
          = s.timeouts ++ [if id = "#refresh" then "#" ++ active.getD "undefined" else id] ∧
        (TimersOk s →
          s'.timers.length
            = timersOf (if id = "#refresh" then "#" ++ active.getD "undefined" else id))) ∧
      (TimersOk s → TimersOk s') ∧
      (s'.sessionStorage = [] ∨
        ((s.isDisabled id = false →
            (if id = "#refresh" then "#" ++ active.getD "undefined" else id) ≠ "#disconnect") ∧
          s'.sessionStorage = s.sessionStorage)) := by
  by_cases hd : s.isDisabled id = true
  · have hcode : tabClick (fuel + 1) readOnly active id s = Except.ok s := by
      rw [tabClick]
      simp only [hd, if_true]
    rw [hcode]
    refine ⟨s, rfl, fun _ => rfl, ?_, fun h => h, Or.inr ⟨?_, rfl⟩⟩
    · intro h
      rw [hd] at h
      cases h
    · intro h
      rw [hd] at h
      cases h
  · have hd' : s.isDisabled id = false := by simpa using hd
    obtain ⟨s2, h2, hdis, hel, hto, htim, hsto⟩ :=
      tabSwitch_ok (displayUIWith (tabClick fuel readOnly active "#refresh")) readOnly
        (if id = "#refresh" then "#" ++ active.getD "undefined" else id)
        (stopTimers (s.disable id))
    have hcode : tabClick (fuel + 1) readOnly active id s
        = Except.ok { s2 with
            timeouts := s2.timeouts
              ++ [if id = "#refresh" then "#" ++ active.getD "undefined" else id] } := by
      rw [tabClick]
      simp only [hd', Bool.false_eq_true, if_false]
      rw [h2]
    obtain ⟨f1, f2, f3, f4, f5⟩ := disable_fields s id
    have hs1 : (stopTimers (s.disable id)).disabled = (s.disable id).disabled ∧
        (stopTimers (s.disable id)).elements = s.elements ∧
        (stopTimers (s.disable id)).timeouts = s.timeouts ∧
        (stopTimers (s.disable id)).timer_id = s.timer_id := by
      rw [stopTimers_eq]
      exact ⟨rfl, f3, f4, f2⟩
    have hclear : TimersOk s → (stopTimers (s.disable id)).timers = [] ∧
        (stopTimers (s.disable id)).timer_id.map Prod.fst ∈ timerKeys := by
      intro hok
      constructor
      · apply stopTimers_clears
        rw [f1, f2]
        exact hok.2.1
      · rw [hs1.2.2.2]
        exact hok.2.2
    rw [hcode]
    have hsto1 : (stopTimers (s.disable id)).sessionStorage = s.sessionStorage := by
      rw [stopTimers_eq]
      exact f5
    refine ⟨_, rfl, ?_, fun _ => ⟨?_, ?_, ?_, ?_⟩, ?_, ?_⟩
    · intro h
      rw [hd'] at h
      cases h
    · exact hdis.trans hs1.1
    · exact hel.trans hs1.2.1
    · show s2.timeouts ++ _ = _
      rw [hto, hs1.2.2.1]
    · intro hok
      exact (htim (hclear hok).1 (hclear hok).2).2
    · intro hok
      exact (htim (hclear hok).1 (hclear hok).2).1
    · rcases hsto with h | ⟨hne, h⟩
      · exact Or.inl h
      · exact Or.inr ⟨fun _ => hne, h.trans hsto1⟩

theorem fireTimeout_timers (s : State) :
    (fireTimeout s).timers = s.timers ∧ (fireTimeout s).timer_id = s.timer_id := by
  unfold fireTimeout
  split <;> exact ⟨rfl, rfl⟩

theorem step_ok (fuel : Nat) (readOnly : String → String → Option Bool) (s : State)
    (e : Event) (h : TimersOk s) :
    ∃ s', step (fuel + 1) readOnly s e = Except.ok s' ∧ TimersOk s' := by
  cases e with
  | click id active =>
    obtain ⟨s', h1, _, _, h4, _⟩ := tabClick_ok fuel readOnly active id s
    exact ⟨s', h1, h4 h⟩
  | selData value active =>
    obtain ⟨s', h1, _, _, h4, _⟩ :=
      tabClick_ok fuel readOnly active "#throughput_nav" { s with selData := value }
    exact ⟨s', h1, h4 h⟩
  | selSrv value navActive active =>
    obtain ⟨s', h1, _, _, h4, _⟩ :=
      tabClick_ok fuel readOnly active ("#" ++ navActive.getD "undefined")
        { s with checked_server := value }
    exact ⟨s', h1, h4 h⟩
  | radio value active =>
    obtain ⟨s', h1, _, _, h4, _⟩ :=
      tabClick_ok fuel readOnly active "#status_nav" { s with checked_server := value }
    exact ⟨s', h1, h4 h⟩
  | timeout =>
    refine ⟨fireTimeout s, rfl, ?_⟩
    obtain ⟨h1, h2⟩ := fireTimeout_timers s
    unfold TimersOk
    rw [h1, h2]
    exact h

theorem runEvents_ok (fuel : Nat) (readOnly : String → String → Option Bool)
    (events : List Event) :
    ∀ s : State, TimersOk s →
      ∃ s', runEvents (fuel + 1) readOnly s events = Except.ok s' ∧ TimersOk s' := by
  induction events with
  | nil => intro s h; exact ⟨s, rfl, h⟩
  | cons e es ih =>
    intro s h
    obtain ⟨s1, h1, hok⟩ := step_ok fuel readOnly s e h
    obtain ⟨s2, h2, hok2⟩ := ih s1 hok
    refine ⟨s2, ?_, hok2⟩
    rw [runEvents, h1]
    exact h2

theorem pageLoad_ok (elements disabled : List String) (storage : List (String × String))
    (selData : String) : TimersOk (pageLoad elements disabled storage selData) := by
  refine ⟨?_, ?_, ?_⟩
  · simp [pageLoad]
  · simp [pageLoad]
  · simp [pageLoad, timerKeys]

/-- C7, the claim as stated fails: after a click on the status tab and, on
a freshly loaded page, a click on the throughput tab, `timer_id` holds two
entries; the handle of the status view stays in it, although its timer was
stopped and only the timer of the throughput view runs. -/
theorem timer_registry_two_entries :
    (runEvents 1 noReadOnly (pageLoad navControls [] [] "hourly")
        [Event.click "#status_nav" (some "status_nav"),
         Event.click "#throughput_nav" (some "status_nav")]).toOption.map
      (fun s => (s.timer_id, s.timers))
      = some ([("status", 0), ("throughput", 1)], [1]) := by
  decide

/-- C7 as amended: every sequence of navigation events and expiries of the
re-enable delay, from a freshly loaded page, is handled without a fault,
and in the state it reaches the scheduler runs at most one timer, every
running timer has its handle in `timer_id`, and `timer_id` holds at most
two entries (handles of stopped timers stay in it); a `tabClick` that is
not dropped then leaves running exactly the timers the view it resolves to
registers, one for the status and throughput views and none for the
others. -/
theorem at_most_one_running_timer (fuel : Nat) (readOnly : String → String → Option Bool)
    (elements disabled : List String) (storage : List (String × String)) (selData : String)
    (events : List Event) :
    ∃ s, runEvents (fuel + 1) readOnly (pageLoad elements disabled storage selData) events
        = Except.ok s ∧
      s.timers.length ≤ 1 ∧ (∀ t ∈ s.timers, t ∈ s.timer_id.map Prod.snd) ∧
      s.timer_id.length ≤ 2 ∧
      (∀ (id : String) (active : Option String), s.isDisabled id = false →
        ∃ s', tabClick (fuel + 1) readOnly active id s = Except.ok s' ∧
          s'.timers.length
            = timersOf (if id = "#refresh" then "#" ++ active.getD "undefined" else id) ∧
          s'.timers.length ≤ 1 ∧ s'.timer_id.length ≤ 2) := by
  obtain ⟨s, hrun, hok⟩ := runEvents_ok fuel readOnly events _
    (pageLoad_ok elements disabled storage selData)
  refine ⟨s, hrun, hok.1, hok.2.1, timers_length_of_keys _ hok.2.2, ?_⟩
  intro id active hd
  obtain ⟨s', h1, _, h3, h4, _⟩ := tabClick_ok fuel readOnly active id s
  have hok' := h4 hok
  exact ⟨s', h1, (h3 hd).2.2.2 hok, hok'.1, timers_length_of_keys _ hok'.2.2⟩

/-- C9, the claim as stated fails: on a freshly loaded page a direct click
on the status tab disables that tab only, not `#refresh`; and a refresh
event that resolves to the status tab disables `#refresh` only, not the
tab. -/
theorem click_disables_one_control :
    (tabClick 1 noReadOnly (some "status_nav") "#status_nav"
        (pageLoad navControls [] [] "hourly")).toOption.map (fun s => s.disabled)
      = some ["#status_nav"] ∧
    (tabClick 1 noReadOnly (some "status_nav") "#refresh"
        (pageLoad navControls [] [] "hourly")).toOption.map (fun s => s.disabled)
      = some ["#refresh"] := by
  decide

/-- C9 as amended: for every navigation event that arrives on a control of
the page that is not disabled (a view's link, or `#refresh`), `tabClick`
returns with that control disabled and the disabled state of every other
control unchanged, and with one more pending callback, the one that after
the delay enables the control of the view the event resolved to and
`#refresh`. -/
theorem tabClick_disables_clicked (fuel : Nat) (readOnly : String → String → Option Bool)
    (active : Option String) (id : String) (s : State)
    (hel : id ∈ s.elements) (hen : id ∉ s.disabled) :
    ∃ s', tabClick (fuel + 1) readOnly active id s = Except.ok s' ∧
      s'.disabled = s.disabled ++ [id] ∧
      s'.isDisabled id = true ∧
      (∀ c, c ≠ id → s'.isDisabled c = s.isDisabled c) ∧
      s'.timeouts
        = s.timeouts ++ [if id = "#refresh" then "#" ++ active.getD "undefined" else id] ∧
      (fireTimeout { s' with
          timeouts := [if id = "#refresh" then "#" ++ active.getD "undefined" else id] }).disabled
        = s'.disabled.filter (fun c =>
            decide (c ≠ (if id = "#refresh" then "#" ++ active.getD "undefined" else id))
              && decide (c ≠ "#refresh")) := by
  have hd : s.isDisabled id = false := by
    simp [State.isDisabled, hen]
  obtain ⟨s', h1, _, h3, _, _⟩ := tabClick_ok fuel readOnly active id s
  obtain ⟨hdis, helm, hto, _⟩ := h3 hd
  have hdisable : (s.disable id).disabled = s.disabled ++ [id] := by
    simp [State.disable, hel, hen]
  rw [hdisable] at hdis
  refine ⟨s', h1, hdis, ?_, ?_, hto, ?_⟩
  · simp [State.isDisabled, helm, hdis, hel]
  · intro c hc
    simp [State.isDisabled, helm, hdis, hc]
  · simp [fireTimeout, State.enable, List.filter_filter, Bool.and_comm]

/-- Witness of C9 as amended: a click on the status tab of a freshly
loaded page. -/
theorem tabClick_disables_clicked_witness :
    ("#status_nav" ∈ (pageLoad navControls [] [] "hourly").elements ∧
      "#status_nav" ∉ (pageLoad navControls [] [] "hourly").disabled) ∧
    ∃ s', tabClick 1 noReadOnly (some "status_nav") "#status_nav"
        (pageLoad navControls [] [] "hourly") = Except.ok s' ∧
      s'.disabled = [] ++ ["#status_nav"] ∧ s'.isDisabled "#status_nav" = true :=
  ⟨⟨by decide, by decide⟩,
    (tabClick_disables_clicked 0 noReadOnly (some "status_nav") "#status_nav"
      (pageLoad navControls [] [] "hourly") (by decide) (by decide)).imp
      (fun _ h => ⟨h.1, h.2.1, h.2.2.1⟩)⟩

theorem filter_ne_idem (l : List String) (a b c : String) :
    (((((l.filter (fun x => decide (x ≠ a))).filter (fun x => decide (x ≠ b))).filter
        (fun x => decide (x ≠ c))).filter (fun x => decide (x ≠ a))).filter
        (fun x => decide (x ≠ b))).filter (fun x => decide (x ≠ c))
      = ((l.filter (fun x => decide (x ≠ a))).filter (fun x => decide (x ≠ b))).filter
        (fun x => decide (x ≠ c)) := by
  have hm : ∀ x ∈ ((l.filter (fun x => decide (x ≠ a))).filter
      (fun x => decide (x ≠ b))).filter (fun x => decide (x ≠ c)), x ≠ a ∧ x ≠ b ∧ x ≠ c := by
    intro x hx
    simp only [List.mem_filter, decide_eq_true_eq] at hx
    exact ⟨hx.1.1.2, hx.1.2, hx.2⟩
  have h1 := List.filter_eq_self.2 (fun x hx => by simpa using (hm x hx).1 :
    ∀ x ∈ ((l.filter (fun x => decide (x ≠ a))).filter
      (fun x => decide (x ≠ b))).filter (fun x => decide (x ≠ c)), decide (x ≠ a) = true)
  have h2 := List.filter_eq_self.2 (fun x hx => by simpa using (hm x hx).2.1 :
    ∀ x ∈ ((l.filter (fun x => decide (x ≠ a))).filter
      (fun x => decide (x ≠ b))).filter (fun x => decide (x ≠ c)), decide (x ≠ b) = true)
  have h3 := List.filter_eq_self.2 (fun x hx => by simpa using (hm x hx).2.2 :
    ∀ x ∈ ((l.filter (fun x => decide (x ≠ a))).filter
      (fun x => decide (x ≠ b))).filter (fun x => decide (x ≠ c)), decide (x ≠ c) = true)
  rw [h1, h2, h3]

theorem filter_notMem_idem (l v : List Nat) :
    (l.filter (fun t => decide (t ∉ v))).filter (fun t => decide (t ∉ v))
      = l.filter (fun t => decide (t ∉ v)) := by
  rw [List.filter_eq_self]
  intro x hx
  exact (List.mem_filter.1 hx).2

/-- C10: from every state, `disconnect` returns, a second `disconnect`
right after it returns too, and the state after the second call equals the
state after the first in everything but the record of calls made (session
storage, the keys of `graphs` and `tables`, `timer_id`, the running
timers, the disabled controls and the rest); after either call no token is
stored and `isLogged()` is false. -/
theorem disconnect_idempotent (fuel : Nat) (readOnly : String → String → Option Bool)
    (active : Option String) (s : State) :
    ∃ s1 s2, disconnect fuel readOnly active s = Except.ok s1 ∧
      disconnect fuel readOnly active s1 = Except.ok s2 ∧
      s2.forget = s1.forget ∧
      (s2.sessionStorage = s1.sessionStorage ∧ s2.graphs = s1.graphs ∧
        s2.tables = s1.tables ∧ s2.timer_id = s1.timer_id) ∧
      (getPassword s1 = none ∧ isLogged s1 = false) ∧
      (getPassword s2 = none ∧ isLogged s2 = false) := by
  obtain ⟨cs, hcs⟩ := teardown_eq s
  obtain ⟨cs', hcs'⟩ := teardown_eq ((teardown s).log connectDialogCalls)
  have hforget : ((teardown ((teardown s).log connectDialogCalls)).log connectDialogCalls).forget
      = ((teardown s).log connectDialogCalls).forget := by
    rw [hcs', hcs]
    simp only [State.forget, State.log]
    rw [filter_ne_idem, filter_ne_idem, filter_notMem_idem]
  refine ⟨(teardown s).log connectDialogCalls,
    (teardown ((teardown s).log connectDialogCalls)).log connectDialogCalls,
    disconnectWith_eq _ _ _, disconnectWith_eq _ _ _, hforget, ?_, ?_, ?_⟩
  · have h := hforget
    simp only [State.forget] at h
    injection h with h1 h2 h3 h4 h5 h6 h7
    exact ⟨h7, h1, h2, h5⟩
  · rw [hcs]
    exact ⟨rfl, rfl⟩
  · rw [hcs']
    exact ⟨rfl, rfl⟩

/-- The function `saveCredentials` leaves the item `Credentials` as it
was. -/
theorem saveCredentials_credentials (password : String) (s : State) :
    (saveCredentials password s).sessionStorage.lookup "Credentials"
      = s.sessionStorage.lookup "Credentials" := by
  have hA : ∀ st : List (String × String),
      (st.map (fun e => if e.1 = "Password" then ("Password", password) else e)).lookup
          "Credentials"
        = st.lookup "Credentials" := by
    intro st
    induction st with
    | nil => rfl
    | cons e st ih =>
      obtain ⟨k, v⟩ := e
      by_cases hk : k = "Password"
      · subst hk
        simp [List.lookup]
        exact ih
      · simp only [List.map_cons, hk, if_false]
        simp only [List.lookup]
        split
        · rfl
        · exact ih
  have hB : ∀ st : List (String × String),
      (st ++ [("Password", password)]).lookup "Credentials" = st.lookup "Credentials" := by
    intro st
    induction st with
    | nil => rfl
    | cons e st ih =>
      obtain ⟨k, v⟩ := e
      simp only [List.cons_append, List.lookup]
      split
      · rfl
      · exact ih
  simp only [saveCredentials]
  unfold assign
  split
  · exact hA _
  · exact hB _

theorem saveCredentials_isLogged (password : String) (s : State) :
    isLogged (saveCredentials password s) = isLogged s := by
  simp only [isLogged, saveCredentials_credentials]

theorem lookup_map_assign {α : Type} (k : String) (v : α) (obj : List (String × α))
    (h : obj.any (fun e => e.1 == k) = true) :
    (obj.map (fun e => if e.1 = k then (k, v) else e)).lookup k = some v := by
  induction obj with
  | nil => simp at h
  | cons e obj ih =>
    obtain ⟨k', v'⟩ := e
    rw [List.map_cons]
    dsimp only
    by_cases hk : k' = k
    · rw [if_pos hk]
      simp [List.lookup]
    · rw [if_neg hk]
      have hk' : (k == k') = false := by
        simpa using fun hc : k = k' => hk hc.symm
      have h' : obj.any (fun e => e.1 == k) = true := by
        simpa [hk] using h
      simp only [List.lookup, hk']
      exact ih h'

theorem lookup_append_assign {α : Type} (k : String) (v : α) (obj : List (String × α))
    (h : ¬ obj.any (fun e => e.1 == k) = true) :
    (obj ++ [(k, v)]).lookup k = some v := by
  induction obj with
  | nil => simp [List.lookup]
  | cons e obj ih =>
    obtain ⟨k', v'⟩ := e
    have hk : ¬ k' = k := by
      intro hc
      apply h
      simp [hc]
    have hk' : (k == k') = false := by
      simpa using fun hc : k = k' => hk hc.symm
    have h' : ¬ obj.any (fun e => e.1 == k) = true := by
      intro hc
      apply h
      simp only [List.any_cons, hc, Bool.or_true]
    simp only [List.cons_append, List.lookup, hk']
    exact ih h'

theorem lookup_assign {α : Type} (obj : List (String × α)) (k : String) (v : α) :
    (assign obj k v).lookup k = some v := by
  unfold assign
  split
  · rename_i h
    exact lookup_map_assign k v obj h
  · rename_i h
    exact lookup_append_assign k v obj h

theorem isLogged_of_storage (s t : State) (h : s.sessionStorage = t.sessionStorage) :
    isLogged s = isLogged t := by
  simp only [isLogged, h]

/-- C8, the claim as stated fails: on a freshly loaded page with an empty
session storage the password "q1" is submitted and the `auth` request
succeeds with `read_only` unset. In the state in which the `success`
callback calls `displayUI`, `getPassword()` is "q1" but `isLogged()` is
false, `Password` being the only stored item; and so it is when the
callback has returned, on a page with no active navigation link, where
`tabClick("#refresh")` dispatches no tab module. -/
theorem login_stores_no_flag :
    (authSuccessWith Except.ok "q1" ⟨none, false⟩
        (submit "q1" (pageLoad navControls [] [] "hourly"))).toOption.map
      (fun s => (getPassword s, isLogged s, s.sessionStorage))
      = some (some "q1", false, [("Password", "q1")]) ∧
    (authSuccess 1 noReadOnly none "q1" ⟨none, false⟩
        (submit "q1" (pageLoad navControls [] [] "hourly"))).toOption.map
      (fun s => (getPassword s, isLogged s, s.sessionStorage, s.calls.filter
        (fun c => match c with
          | Call.fetch _ => true
          | _ => false)))
      = some (some "q1", false, [("Password", "q1")], []) := by
  decide

/-- C8 as amended: the `success` callback of `auth` for password `p`, on a
response not marked failed, calls `displayUI` (whatever `displayUI` and
the modules it dispatches then do) in a state where the token is stored,
`saveCredentials` having set the item `Password` to `p`, so that
`getPassword()` returns `p`; the callback has not stored the authenticated
flag: the item `Credentials`, which `isLogged()` reads, is as it was, and
`isLogged()` answers as before the login. A `disconnect` from that state
returns and leaves no token and `isLogged()` false. On a response marked
failed the callback only empties the password field. -/
theorem login_stores_token_only (displayUI : State → Except Fault State) (password : String)
    (json : AuthJson) (s : State) :
    ∃ s1, authSuccessWith displayUI password json s
        = (if json.auth = some "failed" then
            Except.ok (s.log [Call.dom "val" "#connectPassword"])
          else displayUI s1) ∧
      s1.sessionStorage = assign s.sessionStorage "Password" password ∧
      getPassword s1 = some password ∧
      isLogged s1 = isLogged s ∧
      s1.sessionStorage.lookup "Credentials" = s.sessionStorage.lookup "Credentials" ∧
      (∀ (fuel : Nat) (readOnly : String → String → Option Bool) (active : Option String),
        ∃ s2, disconnect fuel readOnly active s1 = Except.ok s2 ∧
          getPassword s2 = none ∧ isLogged s2 = false) := by
  have hsto : ∀ s0 : State, s0.sessionStorage = s.sessionStorage →
      ((saveCredentials password s0).log
          [Call.dom "hide" "#connectDialog", Call.dom "hide" "#backDrop"]).sessionStorage
        = assign s.sessionStorage "Password" password := by
    intro s0 h0
    simp only [State.log, saveCredentials, h0]
  have hrest : ∀ s1 : State, s1.sessionStorage = assign s.sessionStorage "Password" password →
      getPassword s1 = some password ∧ isLogged s1 = isLogged s ∧
      s1.sessionStorage.lookup "Credentials" = s.sessionStorage.lookup "Credentials" ∧
      (∀ (fuel : Nat) (readOnly : String → String → Option Bool) (active : Option String),
        ∃ s2, disconnect fuel readOnly active s1 = Except.ok s2 ∧
          getPassword s2 = none ∧ isLogged s2 = false) := by
    intro s1 h1
    have hlog : isLogged s1 = isLogged s := by
      rw [isLogged_of_storage s1 (saveCredentials password s) (by rw [h1]; rfl),
        saveCredentials_isLogged]
    refine ⟨by rw [getPassword, h1, lookup_assign], hlog, ?_, ?_⟩
    · have h3 : s1.sessionStorage = (saveCredentials password s).sessionStorage := by
        rw [h1]; rfl
      rw [h3, saveCredentials_credentials]
    · intro fuel readOnly active
      obtain ⟨cs, hcs⟩ := teardown_eq s1
      refine ⟨(teardown s1).log connectDialogCalls, disconnectWith_eq _ _ _, ?_, ?_⟩
      · rw [hcs]; rfl
      · rw [hcs]; rfl
  by_cases hauth : json.auth = some "failed"
  · refine ⟨saveCredentials password s, ?_, rfl, hrest _ rfl⟩
    simp only [authSuccessWith, hauth, if_true]
  · cases hro : json.read_only with
    | false =>
      have h0 : (({ s.log [Call.dom "val" "#connectPassword"] with read_only := false }.log
            [Call.dom "show" "#learning_nav"]).enable "#resetHistory").sessionStorage
          = s.sessionStorage := rfl
      refine ⟨_, ?_, hsto _ h0, hrest _ (hsto _ h0)⟩
      simp only [authSuccessWith, hauth, if_false, hro, Bool.false_eq_true]
    | true =>
      have h0 : ((({ s.log [Call.dom "val" "#connectPassword"] with read_only := true }.log
            [Call.dom "hide" "#learning_nav"]).disable "#resetHistory").log
            [Call.dom "hide" "#errors-history"]).sessionStorage = s.sessionStorage := by
        simp only [State.log]
        unfold State.disable
        split <;> rfl
      refine ⟨_, ?_, hsto _ h0, hrest _ (hsto _ h0)⟩
      simp only [authSuccessWith, hauth, if_false, hro, if_true]

end Rspamd
